import Mathlib

/-!
Verification development for the Go package configo (file src/configo.go):
configuration path resolution, the loading pipeline and the schema descriptors.

* `fetchConfigPath` and `MustLoad` are translated from the source.  The Go standard
  library calls they make (`flag.StringVar`, `flag.Parse`, `os.Getenv`, `os.Stat`) are
  modelled on an explicit process state `World`; every such call is recorded in
  `World.trace`, so that "stage X was not run" is a statement about the trace.
* `cleanenv.ReadConfig` and `NewEnv` are not defined in `src/configo.go`.  `MustLoad`
  takes them as parameters (`Externals`), and the statements about `MustLoad` hold for
  every decoder and every environment factory.
* The struct declarations (`Database`, `Redis`, `KafkaProducer`, ...) are embedded as
  tables that carry the Go field name, the Go type and the raw struct tag, exactly as
  written in the source.  The container `Grpc`, which only nests `GrpcServer` and a
  slice of `GrpcClient`, is not needed and is left out.
* The statements about decoding (required fields, defaults, lists) are about a model
  of the Schema Decoder written from the specification; its definitions say so.
-/

namespace Configo

/-! ## Process state -/

/-- How a Go call ends: it returns a value, it panics with a message, or it ends the
process through `os.Exit`. -/
inductive Outcome (α : Type) where
  | ret (a : α)
  | panic (msg : String)
  | exit (code : Nat)
  deriving DecidableEq, Repr

/-- The externally visible calls made by the loader, in the order they happen. -/
inductive Event where
  | flagVar (name : String)
  | flagParse
  | getenv (name : String)
  | stat (path : String)
  | readConfig (path : String)
  | newEnv (name : String)
  deriving DecidableEq, Repr

/-- A flag registered on `flag.CommandLine`: its name, whether its value is a boolean
flag (which takes no separate argument), and which texts its `Set` method accepts. -/
structure FlagDef where
  name : String
  isBool : Bool
  accepts : String → Bool

/-- The key/value view of a configuration file: each declared key with its raw scalar
text, in file order. -/
abbrev Document := List (String × String)

/-- What a path names on the filesystem: a directory, or a file whose text either is a
well-formed document or is not (`none`). -/
inductive FsEntry where
  | dir
  | file (doc : Option Document)
  deriving DecidableEq, Repr

/-- The part of the process the loader reads and writes. -/
structure World where
  /-- Text of `os.Args[0]`, the name of `flag.CommandLine`. -/
  progName : String
  /-- Contents of `os.Args[1:]`. -/
  args : List String
  /-- Flags registered so far on `flag.CommandLine`. -/
  formal : List FlagDef
  /-- The process environment, first binding of a name wins. -/
  environ : List (String × String)
  /-- The paths that exist on the filesystem. -/
  files : List (String × FsEntry)
  /-- The calls made so far, oldest first. -/
  trace : List Event

/-- Append one event to the trace. -/
def World.log (w : World) (e : Event) : World :=
  { w with trace := w.trace ++ [e] }

/-- Lookup in an association list keyed by strings (first binding wins). -/
def assoc {β : Type} : List (String × β) → String → Option β
  | [], _ => none
  | (k, v) :: rest, key => if k = key then some v else assoc rest key

/-! ## The `flag` package -/

/-- The entry of `formal` for a name (`f.formal[name]`). -/
def lookupFlag : List FlagDef → String → Option FlagDef
  | [], _ => none
  | d :: rest, name => if d.name = name then some d else lookupFlag rest name

/-- The panic message of `FlagSet.Var` for a name that is already registered. -/
def redefinedMsg (progName name : String) : String :=
  if progName = "" then "flag redefined: " ++ name
  else progName ++ " flag redefined: " ++ name

/-- The registry entry of a string flag: it takes an argument and its `Set` accepts
every text. -/
def stringFlag (name : String) : FlagDef := ⟨name, false, fun _ => true⟩

/-- `flag.StringVar(&result, name, "", usage)`: panics when the name is already
registered on `flag.CommandLine`, otherwise registers a string flag.  The name checks of
`FlagSet.Var` (a leading `-`, an `=` inside) cannot fire for the literal name `config`
and are left out. -/
def flagStringVar (w : World) (name : String) : Outcome Unit × World :=
  let w1 := w.log (.flagVar name)
  match lookupFlag w.formal name with
  | some _ => (.panic (redefinedMsg w.progName name), w1)
  | none =>
    (.ret (), { w1 with formal := w1.formal ++ [stringFlag name] })

/-- Why `FlagSet.Parse` stopped with an error: `ErrHelp`, or any other failure. -/
inductive ParseErr where
  | help
  | failed
  deriving DecidableEq, Repr

/-- First step of `FlagSet.parseOne` on one argument. -/
inductive ArgShape where
  /-- Not a flag (shorter than two bytes, no leading `-`) or the terminator `--`. -/
  | stop
  /-- The message `bad flag syntax`. -/
  | bad
  /-- A flag with its name and, for the form `-name=value`, its value. -/
  | flag (name : String) (value : Option String)
  deriving DecidableEq, Repr

/-- Cut a character list at its first `=`. -/
def cutEq : List Char → Option (List Char × List Char)
  | [] => none
  | c :: cs =>
    if c = '=' then some ([], cs)
    else match cutEq cs with
      | some (pre, post) => some (c :: pre, post)
      | none => none

/-- The name/value split of `parseOne`: the `=` is searched from index 1 on. -/
def nameValue : List Char → ArgShape
  | [] => .bad
  | c :: cs =>
    if c = '-' ∨ c = '=' then .bad
    else match cutEq cs with
      | some (pre, post) => .flag (String.mk (c :: pre)) (some (String.mk post))
      | none => .flag (String.mk (c :: cs)) none

/-- Classification of one command-line argument as `parseOne` does it. -/
def argShape : List Char → ArgShape
  | '-' :: '-' :: [] => .stop
  | '-' :: '-' :: name => nameValue name
  | '-' :: c :: name => nameValue (c :: name)
  | _ => .stop

/-- The loop of `FlagSet.Parse` over the arguments.  `cur` is the content of the
variable bound to the flag `config`; the values of all other flags are not tracked. -/
def parseArgs (formal : List FlagDef) : List String → String → Except ParseErr String
  | [], cur => .ok cur
  | s :: rest, cur =>
    match argShape s.data with
    | .stop => .ok cur
    | .bad => .error .failed
    | .flag name value =>
      match lookupFlag formal name with
      | none => if name = "help" ∨ name = "h" then .error .help else .error .failed
      | some fd =>
        if fd.isBool then
          if fd.accepts (value.getD "true") then parseArgs formal rest cur
          else .error .failed
        else
          match value with
          | some v =>
            if fd.accepts v then parseArgs formal rest (if name = "config" then v else cur)
            else .error .failed
          | none =>
            match rest with
            | [] => .error .failed
            | v :: rest2 =>
              if fd.accepts v then
                parseArgs formal rest2 (if name = "config" then v else cur)
              else .error .failed

/-- `flag.Parse()` on `flag.CommandLine`, whose error handling is `ExitOnError`:
`ErrHelp` ends the process with status 0, any other error with status 2.  The value
returned is the content of the variable bound to `config`, whose default is `""`. -/
def flagParse (w : World) : Outcome String × World :=
  let w1 := w.log .flagParse
  match parseArgs w.formal w.args "" with
  | .ok v => (.ret v, w1)
  | .error .help => (.exit 0, w1)
  | .error .failed => (.exit 2, w1)

/-- The value the command line gives the flag `config` once it is registered: the
result of `FlagSet.Parse` over `os.Args[1:]`, or the reason parsing stops the process. -/
def configFlagValue (w : World) : Except ParseErr String :=
  parseArgs (w.formal ++ [stringFlag "config"]) w.args ""

/-! ## `os` -/

/-- `os.Getenv(name)`: the value of the variable, `""` when it is not set. -/
def osGetenv (w : World) (name : String) : String × World :=
  ((assoc w.environ name).getD "", w.log (.getenv name))

/-- `os.Stat(path)`: `true` when it reports no error, that is when the path exists. -/
def osStat (w : World) (path : String) : Bool × World :=
  ((assoc w.files path).isSome, w.log (.stat path))

/-! ## The loader (translated from the source) -/

/-- `fetchConfigPath` of `src/configo.go`. -/
def fetchConfigPath (w : World) : Outcome String × World :=
  match flagStringVar w "config" with
  | (.ret (), w1) =>
    match flagParse w1 with
    | (.ret result, w2) =>
      if result = "" then
        match osGetenv w2 "CONFIG_PATH" with
        | (e, w3) => (.ret e, w3)
      else (.ret result, w2)
    | (.panic m, w2) => (.panic m, w2)
    | (.exit c, w2) => (.exit c, w2)
  | (.panic m, w1) => (.panic m, w1)
  | (.exit c, w1) => (.exit c, w1)

/-- The interface `Config` of the source: a schema type with an `Env() string` method. -/
class Config (TConfig : Type) where
  Env : TConfig → String

/-- The parts `MustLoad` calls that `src/configo.go` does not define: the zero value of
the schema type (`var cfg TConfig`), the decoder `cleanenv.ReadConfig(path, &cfg)`,
which returns the populated schema or an error text, and the environment factory
`NewEnv`. -/
structure Externals (TConfig TEnv : Type) where
  zero : TConfig
  ReadConfig : World → String → TConfig → Except String TConfig
  NewEnv : String → Except String TEnv

/-- The call `cleanenv.ReadConfig(path, &cfg)`, recorded in the trace. -/
def callReadConfig {TConfig TEnv : Type} (X : Externals TConfig TEnv) (w : World)
    (path : String) : Except String TConfig × World :=
  (X.ReadConfig w path X.zero, w.log (.readConfig path))

/-- The call `NewEnv(name)`, recorded in the trace. -/
def callNewEnv {TConfig TEnv : Type} (X : Externals TConfig TEnv) (w : World)
    (name : String) : Except String TEnv × World :=
  (X.NewEnv name, w.log (.newEnv name))

/-- `MustLoad` of `src/configo.go`. -/
def MustLoad {TConfig TEnv : Type} [Config TConfig] (X : Externals TConfig TEnv)
    (w : World) : Outcome (TConfig × TEnv) × World :=
  match fetchConfigPath w with
  | (.ret path, w1) =>
    if path = "" then (.panic "Путь конфига не найден", w1)
    else
      match osStat w1 path with
      | (false, w2) => (.panic "Файл конфига не найден", w2)
      | (true, w2) =>
        match callReadConfig X w2 path with
        | (.error err, w3) => (.panic ("Ошибка загрузки конфига: " ++ err), w3)
        | (.ok cfg, w3) =>
          match callNewEnv X w3 (Config.Env cfg) with
          | (.error err, w4) => (.panic ("Ошибка создания окружения: " ++ err), w4)
          | (.ok env, w4) => (.ret (cfg, env), w4)
  | (.panic m, w1) => (.panic m, w1)
  | (.exit c, w1) => (.exit c, w1)

/-- The states of a process after a first invocation of the source locator in the state
`w0`: the state that invocation left, alone (`afterFetch`) or inside a `MustLoad` for any
schema (`afterLoad`), and every state reached from such a state by one more invocation of
`fetchConfigPath` (`fetch`) or of `MustLoad` for any schema (`load`). -/
inductive LaterState (w0 : World) : World → Prop where
  | afterFetch : LaterState w0 (fetchConfigPath w0).2
  | afterLoad {TConfig TEnv : Type} [Config TConfig] (X : Externals TConfig TEnv) :
    LaterState w0 (MustLoad X w0).2
  | fetch {w : World} : LaterState w0 w → LaterState w0 (fetchConfigPath w).2
  | load {w : World} {TConfig TEnv : Type} [Config TConfig] (X : Externals TConfig TEnv) :
    LaterState w0 w → LaterState w0 (MustLoad X w).2

/-! ## Struct declarations (translated from the source) -/

/-- The Go types of the fields declared in `src/configo.go`. -/
inductive GoType where
  | string
  | int
  | int32
  | uint32
  | bool
  | float64
  | duration
  | stringSlice
  deriving DecidableEq, Repr

/-- One field of a struct declaration: its name, its type and its raw tag (the text
between the backquotes). -/
structure StructField where
  name : String
  type : GoType
  tag : String
  deriving DecidableEq, Repr

/-- The struct `Database`. -/
def Database : List StructField :=
  [ ⟨"Type", .string, "yaml:\"type\" env-required:\"true\""⟩,
    ⟨"Host", .string, "yaml:\"host\" env-required:\"true\""⟩,
    ⟨"Port", .int, "yaml:\"port\" env-required:\"true\""⟩,
    ⟨"Name", .string, "yaml:\"name\" env-required:\"true\""⟩,
    ⟨"User", .string, "yaml:\"user\" env-required:\"true\""⟩,
    ⟨"Password", .string, "yaml:\"password\" env-required:\"true\""⟩,
    ⟨"Schema", .string, "yaml:\"schema\" env-default:\"public\""⟩,
    ⟨"MigrationPath", .string, "yaml:\"migrationPath\" env-required:\"true\""⟩,
    ⟨"MaxAttempts", .int, "yaml:\"maxAttempts\" env-required:\"true\""⟩,
    ⟨"AttemptDelay", .duration, "yaml:\"attemptDelay\" env-required:\"true\""⟩ ]

/-- The struct `Redis`. -/
def Redis : List StructField :=
  [ ⟨"Host", .string, "yaml:\"host\" env-required:\"true\""⟩,
    ⟨"Port", .int, "yaml:\"port\" env-required:\"true\""⟩,
    ⟨"Db", .int, "yaml:\"db\" "⟩ ]

/-- The struct `KafkaProducer`. -/
def KafkaProducer : List StructField :=
  [ ⟨"Brokers", .stringSlice, "yaml:\"brokers\" env-separator:\",\" env-required:\"true\""⟩,
    ⟨"RequiredAcks", .int, "yaml:\"requiredAcks\" env-default:\"1\""⟩,
    ⟨"Async", .bool, "yaml:\"async\" env-default:\"false\""⟩,
    ⟨"BatchSize", .int, "yaml:\"batchSize\" env-default:\"100\""⟩,
    ⟨"BatchTimeout", .duration, "yaml:\"batchTimeout\" env-default:\"1s\""⟩,
    ⟨"WriteTimeout", .duration, "yaml:\"writeTimeout\" env-default:\"10s\""⟩,
    ⟨"MaxAttempts", .int, "yaml:\"maxAttempts\" env-default:\"3\""⟩ ]

/-- The struct `KafkaConsumer`. -/
def KafkaConsumer : List StructField :=
  [ ⟨"Brokers", .stringSlice, "yaml:\"brokers\" env-separator:\",\" env-required:\"true\""⟩,
    ⟨"GroupID", .string, "yaml:\"groupId\" env-required:\"true\""⟩,
    ⟨"Topics", .stringSlice, "yaml:\"topics\" env-separator:\",\" env-required:\"true\""⟩,
    ⟨"StartOffset", .string, "yaml:\"startOffset\" env-default:\"latest\""⟩,
    ⟨"MinBytes", .int, "yaml:\"minBytes\" env-default:\"10000\""⟩,
    ⟨"MaxBytes", .int, "yaml:\"maxBytes\" env-default:\"10000000\""⟩,
    ⟨"MaxWait", .duration, "yaml:\"maxWait\" env-default:\"1s\""⟩,
    ⟨"CommitInterval", .duration, "yaml:\"commitInterval\" env-default:\"1s\""⟩,
    ⟨"HeartbeatInterval", .duration, "yaml:\"heartbeatInterval\" env-default:\"3s\""⟩,
    ⟨"SessionTimeout", .duration, "yaml:\"sessionTimeout\" env-default:\"30s\""⟩,
    ⟨"RebalanceTimeout", .duration, "yaml:\"rebalanceTimeout\" env-default:\"60s\""⟩,
    ⟨"DialTimeout", .duration, "yaml:\"dialTimeout\" env-default:\"3s\""⟩,
    ⟨"ReadTimeout", .duration, "yaml:\"readTimeout\" env-default:\"30s\""⟩,
    ⟨"WriteTimeout", .duration, "yaml:\"writeTimeout\" env-default:\"10s\""⟩,
    ⟨"MaxAttempts", .int, "yaml:\"maxAttempts\" env-default:\"3\""⟩ ]

/-- The struct `KafkaTopics`. -/
def KafkaTopics : List StructField :=
  [ ⟨"List", .stringSlice, "yaml:\"list\" env-separator:\",\" env-required:\"true\""⟩,
    ⟨"NumPartitions", .int, "yaml:\"numPartitions\" env-required:\"true\""⟩,
    ⟨"ReplicationFactor", .int, "yaml:\"replicationFactor\" env-required:\"true\""⟩ ]

/-- The struct `GrpcServer`. -/
def GrpcServer : List StructField :=
  [ ⟨"Host", .string, "yaml:\"host\" env:\"GRPC_HOST\" env-default:\"0.0.0.0\""⟩,
    ⟨"Port", .int, "yaml:\"port\" env:\"GRPC_PORT,required\" env-required:\"true\""⟩,
    ⟨"EnableTLS", .bool, "yaml:\"enableTLS\" env:\"GRPC_ENABLE_TLS\" env-default:\"false\""⟩,
    ⟨"CertFile", .string, "yaml:\"certFile\" env:\"GRPC_CERT_FILE\""⟩,
    ⟨"KeyFile", .string, "yaml:\"keyFile\" env:\"GRPC_KEY_FILE\""⟩,
    ⟨"ClientCAFile", .string, "yaml:\"clientCAFile\" env:\"GRPC_CLIENT_CA_FILE\""⟩,
    ⟨"KeepAliveMaxConnectionIdle", .duration,
      "yaml:\"keepAliveMaxConnectionIdle\" env:\"GRPC_KEEP_ALIVE_MAX_CONNECTION_IDLE\" env-default:\"0s\""⟩,
    ⟨"KeepAliveMaxConnectionAge", .duration,
      "yaml:\"keepAliveMaxConnectionAge\" env:\"GRPC_KEEP_ALIVE_MAX_CONNECTION_AGE\" env-default:\"0s\""⟩,
    ⟨"KeepAliveMaxConnectionAgeGrace", .duration,
      "yaml:\"keepAliveMaxConnectionAgeGrace\" env:\"GRPC_KEEP_ALIVE_MAX_CONNECTION_AGE_GRACE\" env-default:\"0s\""⟩,
    ⟨"KeepAliveServerTime", .duration,
      "yaml:\"keepAliveServerTime\" env:\"GRPC_KEEP_ALIVE_SERVER_TIME\" env-default:\"2h\""⟩,
    ⟨"KeepAliveServerTimeout", .duration,
      "yaml:\"keepAliveServerTimeout\" env:\"GRPC_KEEP_ALIVE_SERVER_TIMEOUT\" env-default:\"20s\""⟩,
    ⟨"KeepAliveEnforcementPolicyMinTime", .duration,
      "yaml:\"keepAliveEnforcementPolicyMinTime\" env:\"GRPC_KEEP_ALIVE_ENFORCEMENT_MIN_TIME\" env-default:\"5m\""⟩,
    ⟨"KeepAliveEnforcementPolicyPermitWithoutStream", .bool,
      "yaml:\"keepAliveEnforcementPolicyPermitWithoutStream\" env:\"GRPC_KEEP_ALIVE_ENFORCEMENT_PERMIT_WITHOUT_STREAM\" env-default:\"false\""⟩,
    ⟨"MaxReceiveMessageSize", .int,
      "yaml:\"maxReceiveMessageSize\" env:\"GRPC_MAX_RECEIVE_MESSAGE_SIZE\" env-default:\"4194304\""⟩,
    ⟨"MaxSendMessageSize", .int,
      "yaml:\"maxSendMessageSize\" env:\"GRPC_MAX_SEND_MESSAGE_SIZE\" env-default:\"0\""⟩,
    ⟨"MaxConcurrentStreams", .uint32,
      "yaml:\"maxConcurrentStreams\" env:\"GRPC_MAX_CONCURRENT_STREAMS\" env-default:\"0\""⟩,
    ⟨"InitialWindowSize", .int32,
      "yaml:\"initialWindowSize\" env:\"GRPC_INITIAL_WINDOW_SIZE\" env-default:\"0\""⟩,
    ⟨"InitialConnWindowSize", .int32,
      "yaml:\"initialConnWindowSize\" env:\"GRPC_INITIAL_CONN_WINDOW_SIZE\" env-default:\"0\""⟩,
    ⟨"ReadBufferSize", .int,
      "yaml:\"readBufferSize\" env:\"GRPC_READ_BUFFER_SIZE\" env-default:\"32768\""⟩,
    ⟨"WriteBufferSize", .int,
      "yaml:\"writeBufferSize\" env:\"GRPC_WRITE_BUFFER_SIZE\" env-default:\"32768\""⟩,
    ⟨"EnableHealthCheckService", .bool,
      "yaml:\"enableHealthCheckService\" env:\"GRPC_ENABLE_HEALTH_CHECK_SERVICE\" env-default:\"true\""⟩,
    ⟨"EnableReflectionService", .bool,
      "yaml:\"enableReflectionService\" env:\"GRPC_ENABLE_REFLECTION_SERVICE\" env-default:\"true\""⟩,
    ⟨"GracefulShutdownTimeout", .duration,
      "yaml:\"gracefulShutdownTimeout\" env:\"GRPC_GRACEFUL_SHUTDOWN_TIMEOUT\" env-default:\"30s\""⟩,
    ⟨"ConnectionTimeout", .duration,
      "yaml:\"connectionTimeout\" env:\"GRPC_CONNECTION_TIMEOUT\" env-default:\"120s\""⟩ ]

/-- The struct `GrpcClient`. -/
def GrpcClient : List StructField :=
  [ ⟨"Host", .string, "yaml:\"host\" env:\"HOST,required\""⟩,
    ⟨"Port", .int, "yaml:\"port\" env:\"PORT,required\""⟩,
    ⟨"UserAgent", .string, "yaml:\"userAgent\" env:\"USER_AGENT\""⟩,
    ⟨"EnableTLS", .bool, "yaml:\"enableTLS\" env:\"ENABLE_TLS\" env-default:\"false\""⟩,
    ⟨"CACertFile", .string, "yaml:\"caCertFile\" env:\"CA_CERT_FILE\""⟩,
    ⟨"ClientCertFile", .string, "yaml:\"clientCertFile\" env:\"CLIENT_CERT_FILE\""⟩,
    ⟨"ClientKeyFile", .string, "yaml:\"clientKeyFile\" env:\"CLIENT_KEY_FILE\""⟩,
    ⟨"ServerNameOverride", .string, "yaml:\"serverNameOverride\" env:\"SERVER_NAME_OVERRIDE\""⟩,
    ⟨"ConnectMaxAttempts", .int,
      "yaml:\"connectMaxAttempts\" env:\"CONNECT_MAX_ATTEMPTS\" env-default:\"5\""⟩,
    ⟨"ConnectInitialBackoff", .duration,
      "yaml:\"connectInitialBackoff\" env:\"CONNECT_INITIAL_BACKOFF\" env-default:\"250ms\""⟩,
    ⟨"ConnectMaxBackoff", .duration,
      "yaml:\"connectMaxBackoff\" env:\"CONNECT_MAX_BACKOFF\" env-default:\"5s\""⟩,
    ⟨"ConnectBackoffMultiplier", .float64,
      "yaml:\"connectBackoffMultiplier\" env:\"CONNECT_BACKOFF_MULTIPLIER\" env-default:\"2.0\""⟩,
    ⟨"DialTimeout", .duration, "yaml:\"dialTimeout\" env:\"DIAL_TIMEOUT\" env-default:\"5s\""⟩,
    ⟨"KeepAliveTime", .duration,
      "yaml:\"keepAliveTime\" env:\"KEEP_ALIVE_TIME\" env-default:\"30s\""⟩,
    ⟨"KeepAliveTimeout", .duration,
      "yaml:\"keepAliveTimeout\" env:\"KEEP_ALIVE_TIMEOUT\" env-default:\"20s\""⟩,
    ⟨"PermitWithoutStream", .bool,
      "yaml:\"permitWithoutStream\" env:\"PERMIT_WITHOUT_STREAM\" env-default:\"true\""⟩,
    ⟨"MaxRecvMsgSize", .int,
      "yaml:\"maxRecvMsgSize\" env:\"MAX_RECV_MSG_SIZE\" env-default:\"4194304\""⟩,
    ⟨"MaxSendMsgSize", .int,
      "yaml:\"maxSendMsgSize\" env:\"MAX_SEND_MSG_SIZE\" env-default:\"4194304\""⟩ ]

/-! ## Struct tags

`tagLookup` follows `reflect.StructTag.Lookup` of the Go standard library: a tag is a
sequence of `key:"value"` pairs separated by spaces. -/

/-- Drop the leading spaces. -/
def skipSpaces : List Char → List Char
  | [] => []
  | c :: cs => if c = ' ' then skipSpaces cs else c :: cs

/-- A byte that may occur in a tag key: above the space, and none of `:`, `"`, DEL. -/
def isKeyChar (c : Char) : Bool :=
  decide (32 < c.toNat) && c != ':' && c != '"' && c.toNat != 127

/-- The longest prefix of key bytes, and what follows it. -/
def scanKey : List Char → List Char × List Char
  | [] => ([], [])
  | c :: cs =>
    if isKeyChar c then (c :: (scanKey cs).1, (scanKey cs).2) else ([], c :: cs)

/-- The text up to the closing quote (a backslash protects the byte after it), and what
follows the quote; `none` when the quote is never closed. -/
def scanQuoted : List Char → Option (List Char × List Char)
  | [] => none
  | c :: cs =>
    if c = '"' then some ([], cs)
    else if c = '\\' then
      match cs with
      | [] => none
      | d :: ds =>
        match scanQuoted ds with
        | some (v, rest) => some (c :: d :: v, rest)
        | none => none
    else
      match scanQuoted cs with
      | some (v, rest) => some (c :: v, rest)
      | none => none

/-- The value of a quoted tag text as `strconv.Unquote` gives it, for texts without
escape sequences (the tags of `src/configo.go` have none); a text with a backslash or a
line break is treated as not unquotable. -/
def unquote (v : List Char) : Option (List Char) :=
  if v.any (fun c => c == '\\' || c == '\n') then none else some v

/-- The loop of `reflect.StructTag.Lookup`; every round consumes at least one byte, so
the fuel `tag.length + 1` used by `tagLookup` is never exhausted. -/
def tagLookupAux : Nat → List Char → List Char → Option (List Char)
  | 0, _, _ => none
  | fuel + 1, tag, key =>
    match scanKey (skipSpaces tag) with
    | ([], _) => none
    | (name, ':' :: '"' :: rest) =>
      match scanQuoted rest with
      | none => none
      | some (v, rest2) => if name = key then unquote v else tagLookupAux fuel rest2 key
    | _ => none

/-- `reflect.StructTag(tag).Lookup(key)`: the value of the key, `none` when absent. -/
def tagLookup (tag key : String) : Option String :=
  (tagLookupAux (tag.data.length + 1) tag.data key.data).map String.mk

/-! ## Text helpers -/

/-- The pieces of `s` between the occurrences of a non-empty separator, scanning from the
left; `skip` counts the bytes of a separator occurrence still to be passed over and `acc`
holds the current piece in reverse. -/
def splitAux (sep : List Char) : List Char → Nat → List Char → List (List Char)
  | [], _, acc => [acc.reverse]
  | _ :: cs, skip + 1, acc => splitAux sep cs skip acc
  | c :: cs, 0, acc =>
    if sep.isPrefixOf (c :: cs) then acc.reverse :: splitAux sep cs (sep.length - 1) []
    else splitAux sep cs 0 (c :: acc)

/-- Go's `strings.Split(s, sep)` on character lists: with an empty separator the text is
cut after every character. -/
def splitChars (sep s : List Char) : List (List Char) :=
  if sep = [] then s.map (fun c => [c]) else splitAux sep s 0 []

/-- Go's `strings.Split(s, sep)`. -/
def splitText (sep s : String) : List String :=
  (splitChars sep.data s.data).map String.mk

/-- The value of a decimal digit. -/
def digitVal (c : Char) : Option Nat :=
  if '0' ≤ c ∧ c ≤ '9' then some (c.toNat - 48) else none

/-- The number written by a possibly empty run of decimal digits, read after `acc`. -/
def parseNatAux : List Char → Nat → Option Nat
  | [], acc => some acc
  | c :: cs, acc =>
    match digitVal c with
    | some d => parseNatAux cs (acc * 10 + d)
    | none => none

/-- The number written by a non-empty run of decimal digits. -/
def parseNat (cs : List Char) : Option Nat :=
  if cs = [] then none else parseNatAux cs 0

/-- A decimal integer with an optional sign. -/
def parseInt : List Char → Option Int
  | [] => none
  | c :: cs =>
    if c = '-' then (parseNat cs).map (fun n => -(n : Int))
    else if c = '+' then (parseNat cs).map (fun n => (n : Int))
    else (parseNat (c :: cs)).map (fun n => (n : Int))

/-- The leading decimal digits, and what follows them. -/
def takeDigits : List Char → List Char × List Char
  | [] => ([], [])
  | c :: cs =>
    if (digitVal c).isSome then (c :: (takeDigits cs).1, (takeDigits cs).2)
    else ([], c :: cs)

/-- The leading run of characters that are neither a digit nor a period, and what
follows it. -/
def takeUnit : List Char → List Char × List Char
  | [] => ([], [])
  | c :: cs =>
    if c = '.' ∨ (digitVal c).isSome then ([], c :: cs)
    else (c :: (takeUnit cs).1, (takeUnit cs).2)

/-- The number of nanoseconds in a duration unit. -/
def unitNanos (u : String) : Option Nat :=
  if u = "ns" then some 1
  else if u = "us" ∨ u = "µs" ∨ u = "μs" then some 1000
  else if u = "ms" then some 1000000
  else if u = "s" then some 1000000000
  else if u = "m" then some 60000000000
  else if u = "h" then some 3600000000000
  else none

/-! ## The schema decoder

`MustLoad` decodes with `cleanenv.ReadConfig`, a library call whose code is not in
`src/configo.go`.  The definitions of this section model it from the specification
(section 4.2, Schema Decoder, and the FieldSpec of section 3), over the struct
declarations of the source. -/

deriving instance DecidableEq for Except

/-- Modelled from the spec: the FieldSpec of section 3, the per-field contract the
Schema Decoder (the library call `cleanenv.ReadConfig`, absent from the sources) works
from: the key of the field in the file, its semantic type, the required flag, the
default literal, the delimiter, and the names of the override variables, in the order
they are tried. -/
structure FieldSpec where
  name : String
  key : String
  type : GoType
  required : Bool
  defValue : Option String
  separator : String
  envList : List String
  deriving DecidableEq, Repr

/-- ASCII lower case of a text. -/
def lowerText (s : String) : String :=
  String.mk (s.data.map Char.toLower)

/-- Modelled from the spec: the key of a field in the file ("keyed by a declared field
name"), for the absent decoder: the `yaml` annotation up to its first comma, and the
lower-cased Go name when the annotation is missing or empty. -/
def fileKey (sf : StructField) : String :=
  match tagLookup sf.tag "yaml" with
  | some v =>
    match splitText "," v with
    | k :: _ => if k = "" then lowerText sf.name else k
    | [] => lowerText sf.name
  | none => lowerText sf.name

/-- Modelled from the spec: the derivation of a FieldSpec from the annotations of a
field, for the absent decoder `cleanenv.ReadConfig`.  The annotation keys are those the
source writes: `env-required` marks the field required (by its presence), `env-default`
gives the default literal, `env-separator` the delimiter (default comma), and `env` a
comma-separated list of override variable names. -/
def fieldSpec (sf : StructField) : FieldSpec where
  name := sf.name
  key := fileKey sf
  type := sf.type
  required := (tagLookup sf.tag "env-required").isSome
  defValue := tagLookup sf.tag "env-default"
  separator := (tagLookup sf.tag "env-separator").getD ","
  envList :=
    match tagLookup sf.tag "env" with
    | some envs => if envs = "" then [] else splitText "," envs
    | none => []

/-- A decoded field value.  A duration is a number of nanoseconds.  A floating-point
field holds the decimal its literal denotes, `digits / 10 ^ fracDigits`; rounding to
a binary float is not modelled. -/
inductive Value where
  | str (s : String)
  | int (n : Int)
  | bool (b : Bool)
  | duration (nanos : Int)
  | float (digits : Int) (fracDigits : Nat)
  | list (items : List String)
  deriving DecidableEq, Repr

/-- The zero value of a Go type. -/
def zeroValue : GoType → Value
  | .string => .str ""
  | .int => .int 0
  | .int32 => .int 0
  | .uint32 => .int 0
  | .bool => .bool false
  | .float64 => .float 0 0
  | .duration => .duration 0
  | .stringSlice => .list []

/-- Modelled from the spec: coercion of a raw text to a boolean in the absent decoder
(the literals accepted by Go's `strconv.ParseBool`). -/
def parseBool (s : String) : Option Bool :=
  if s = "1" ∨ s = "t" ∨ s = "T" ∨ s = "TRUE" ∨ s = "true" ∨ s = "True" then some true
  else if s = "0" ∨ s = "f" ∨ s = "F" ∨ s = "FALSE" ∨ s = "false" ∨ s = "False" then
    some false
  else none

/-- The optional fraction of a duration group: the digits after a period, and what
follows them. -/
def fracPart : List Char → List Char × List Char
  | [] => ([], [])
  | d :: ds => if d = '.' then takeDigits ds else ([], d :: ds)

/-- Modelled from the spec: one group `digits[.digits]unit` of a duration literal, for
the absent decoder: its value in nanoseconds, a fraction being cut to whole nanoseconds,
and the text that follows the group. -/
def durationGroup (s : List Char) : Option (Nat × List Char) :=
  if (takeDigits s).1 = [] ∧ (fracPart (takeDigits s).2).1 = [] then none
  else
    match unitNanos (String.mk (takeUnit (fracPart (takeDigits s).2).2).1),
        parseNatAux (takeDigits s).1 0, parseNatAux (fracPart (takeDigits s).2).1 0 with
    | some unit, some a, some b =>
      some (a * unit + b * unit / 10 ^ (fracPart (takeDigits s).2).1.length,
        (takeUnit (fracPart (takeDigits s).2).2).2)
    | _, _, _ => none

/-- Modelled from the spec: the sum of the groups of a duration literal, for the absent
decoder.  Every round consumes at least one character, so the fuel `s.length + 1` used by
`parseDuration` is never exhausted. -/
def durationGroups : Nat → List Char → Nat → Option Nat
  | 0, _, _ => none
  | _ + 1, [], acc => some acc
  | fuel + 1, c :: cs, acc =>
    match durationGroup (c :: cs) with
    | some (v, rest) => durationGroups fuel rest (acc + v)
    | none => none

/-- Modelled from the spec: a "compact human-readable duration literal" (`30s`, `2h`,
`250ms`, `1h30m`), for the absent decoder: an optional sign, then the bare `0` or one or
more groups; the value must fit a signed 64-bit count of nanoseconds. -/
def parseDuration (cs : List Char) : Option Int :=
  match (match cs with
         | [] => (false, cs)
         | c :: rest => if c = '-' then (true, rest) else if c = '+' then (false, rest)
                        else (false, cs)) with
  | (neg, s) =>
    if s = ['0'] then some 0
    else if s = [] then none
    else
      match durationGroups (s.length + 1) s 0 with
      | none => none
      | some d =>
        if neg then (if d ≤ 2 ^ 63 then some (-(d : Int)) else none)
        else (if d < 2 ^ 63 then some (d : Int) else none)

/-- Modelled from the spec: a decimal literal `[sign]digits[.digits]` for a
floating-point field of the absent decoder. -/
def parseDecimal (cs : List Char) : Option (Int × Nat) :=
  match (match cs with
         | [] => (false, cs)
         | c :: rest => if c = '-' then (true, rest) else if c = '+' then (false, rest)
                        else (false, cs)) with
  | (neg, s) =>
    match takeDigits s with
    | (whole, rest) =>
      match (match rest with
             | [] => some ([] : List Char)
             | d :: ds => if d = '.' ∧ (takeDigits ds).2 = [] then some ds else none) with
      | none => none
      | some frac =>
        if whole = [] ∧ frac = [] then none
        else
          match parseNatAux (whole ++ frac) 0 with
          | some n => some (if neg then -(n : Int) else (n : Int), frac.length)
          | none => none

/-- Modelled from the spec: "type-coerced per the field's semantic type", for the absent
decoder: a text is taken as it is, an integer is a decimal literal within the range of
the Go type, a boolean, a duration and a floating-point number are parsed from their
literals, and a list is the raw text split on the delimiter.  `none` is a coercion
failure. -/
def coerce (t : GoType) (sep raw : String) : Option Value :=
  match t with
  | .string => some (.str raw)
  | .int =>
    match parseInt raw.data with
    | some n => if -(2 ^ 63 : Int) ≤ n ∧ n < 2 ^ 63 then some (.int n) else none
    | none => none
  | .int32 =>
    match parseInt raw.data with
    | some n => if -(2 ^ 31 : Int) ≤ n ∧ n < 2 ^ 31 then some (.int n) else none
    | none => none
  | .uint32 =>
    match parseNat raw.data with
    | some n => if n < 2 ^ 32 then some (.int n) else none
    | none => none
  | .bool => (parseBool raw).map Value.bool
  | .float64 => (parseDecimal raw.data).map (fun p => Value.float p.1 p.2)
  | .duration => (parseDuration raw.data).map Value.duration
  | .stringSlice => some (.list (splitText sep raw))

/-- Modelled from the spec: the failures of the Schema Decoder in the error taxonomy of
section 7, `RequiredFieldMissing(field)` and `DecodeError(field, rawValue, reason)`. -/
inductive DecodeError where
  | requiredFieldMissing (field : String)
  | decodeError (field rawValue : String)
  deriving DecidableEq, Repr

/-- Modelled from the spec: the override lookup of the absent decoder (step 1 of section
4.2): the value of the first variable of the list that is set in the environment. -/
def firstSet (environ : List (String × String)) : List String → Option String
  | [] => none
  | n :: rest =>
    match assoc environ n with
    | some v => some v
    | none => firstSet environ rest

/-- Modelled from the spec: the coercion of a raw text for a field of the absent
decoder, which fails with `DecodeError` naming the field and the raw value. -/
def coerceField (fd : FieldSpec) (raw : String) : Except DecodeError (Option Value) :=
  match coerce fd.type fd.separator raw with
  | some v => .ok (some v)
  | none => .error (.decodeError fd.name raw)

/-- Modelled from the spec: the per-field algorithm of the Schema Decoder (section 4.2,
steps 1 to 4), for the absent `cleanenv.ReadConfig`: an override variable that is set
wins, then the value of the file, then the default literal; with none of them a required
field fails and any other field is left as it is in the destination (`none`). -/
def resolveField (environ : List (String × String)) (doc : Document) (fd : FieldSpec) :
    Except DecodeError (Option Value) :=
  match firstSet environ fd.envList with
  | some raw => coerceField fd raw
  | none =>
    match assoc doc fd.key with
    | some raw => coerceField fd raw
    | none =>
      match fd.defValue with
      | some d => coerceField fd d
      | none => if fd.required then .error (.requiredFieldMissing fd.name) else .ok none

/-- A populated schema instance: the value of every field, by Go field name. -/
abbrev Record := List (String × Value)

/-- The zero-valued instance of a struct type. -/
def zeroRecord (schema : List StructField) : Record :=
  schema.map (fun sf => (sf.name, zeroValue sf.type))

/-- Modelled from the spec: the Schema Decoder over the fields of the destination, for
the absent `cleanenv.ReadConfig`: the fields are resolved in declaration order and the
first failure aborts the whole operation ("decoding is all-or-nothing"); a field that no
source gives a value keeps the value it has in the destination. -/
def decodeFields (environ : List (String × String)) (doc : Document) (dst : Record) :
    List FieldSpec → Except DecodeError Record
  | [] => .ok []
  | fd :: rest =>
    match resolveField environ doc fd with
    | .error e => .error e
    | .ok v =>
      match decodeFields environ doc dst rest with
      | .error e => .error e
      | .ok r => .ok ((fd.name, v.getD ((assoc dst fd.name).getD (zeroValue fd.type))) :: r)

/-- Modelled from the spec: `decode(path, destination)` of section 4.2 on the document
found at the path, for the absent `cleanenv.ReadConfig`. -/
def decode (schema : List StructField) (environ : List (String × String))
    (doc : Document) (dst : Record) : Except DecodeError Record :=
  decodeFields environ doc dst (schema.map fieldSpec)

/-- Whether the resolution of a field succeeds. -/
def resolves (environ : List (String × String)) (doc : Document) (fd : FieldSpec) : Bool :=
  match resolveField environ doc fd with
  | .ok _ => true
  | .error _ => false

/-- Modelled from the spec: the call `cleanenv.ReadConfig(path, &cfg)` for a struct type
of the source, absent from the sources: the file at the path must hold a well-formed
document, which is then decoded.  The spec names the failures and not their texts, so
the text of a decoder failure (`render`) and of an unreadable source (`unreadable`) are
parameters. -/
def schemaReadConfig (render : DecodeError → String) (unreadable : String)
    (schema : List StructField) (w : World) (path : String) (dst : Record) :
    Except String Record :=
  match assoc w.files path with
  | some (.file (some doc)) =>
    match decode schema w.environ doc dst with
    | .ok r => .ok r
    | .error e => .error (render e)
  | _ => .error unreadable

/-- The externals of `MustLoad` for a struct type of the source, the texts of the decoder
failures and an environment factory. -/
def schemaExternals {TEnv : Type} (render : DecodeError → String) (unreadable : String)
    (schema : List StructField) (newEnv : String → Except String TEnv) :
    Externals Record TEnv where
  zero := zeroRecord schema
  ReadConfig := schemaReadConfig render unreadable schema
  NewEnv := newEnv

/-! ## Sample processes -/

/-- The state in which `flag.Parse` leaves a process whose registry was fresh. -/
def afterParse (w : World) : World :=
  { w with formal := w.formal ++ [stringFlag "config"],
           trace := w.trace ++ [.flagVar "config", .flagParse] }

/-- A process started as `app -config /etc/app.yaml` with `CONFIG_PATH=/env.yaml`, an
empty flag registry and an empty filesystem. -/
def worldFlagAndEnv : World :=
  ⟨"app", ["-config", "/etc/app.yaml"], [], [("CONFIG_PATH", "/env.yaml")], [], []⟩

/-- A process started as `app` with no arguments and an empty environment. -/
def worldBare : World := ⟨"app", [], [], [], [], []⟩

/-- An environment factory that accepts `local`, `dev` and `prod`. -/
def sampleNewEnv (name : String) : Except String String :=
  if name = "local" ∨ name = "dev" ∨ name = "prod" then .ok name
  else .error ("unknown environment " ++ name)

/-- A schema type with one field, the environment name. -/
structure NameOnly where
  env : String
  deriving DecidableEq, Repr

instance : Config NameOnly := ⟨fun c => c.env⟩

/-- Sample externals: the decoder reads the environment name from the key `env` of the
document at the path, and the factory is `sampleNewEnv`. -/
def sampleExternals : Externals NameOnly String where
  zero := ⟨""⟩
  ReadConfig := fun w path _ =>
    match assoc w.files path with
    | some (.file (some doc)) =>
      match assoc doc "env" with
      | some v => .ok ⟨v⟩
      | none => .error "field Env is required"
    | _ => .error "cannot read the file"
  NewEnv := sampleNewEnv

/-- A process started as `app -config /etc/app.yaml` whose file declares `env: prod`. -/
def worldProd : World :=
  ⟨"app", ["-config", "/etc/app.yaml"], [], [],
    [("/etc/app.yaml", .file (some [("env", "prod")]))], []⟩

/-- A process started as `app -config /etc/app.yaml` whose file declares `env: qa`. -/
def worldQa : World :=
  ⟨"app", ["-config", "/etc/app.yaml"], [], [],
    [("/etc/app.yaml", .file (some [("env", "qa")]))], []⟩

/-- A process started as `app -verbose` with `CONFIG_PATH=/env.yaml`: the flag `config`
is absent and no flag `verbose` is registered. -/
def worldUnknownFlag : World :=
  ⟨"app", ["-verbose"], [], [("CONFIG_PATH", "/env.yaml")], [], []⟩

/-- A process started as `app -verbose` with an empty environment. -/
def worldUnknownFlagNoEnv : World := ⟨"app", ["-verbose"], [], [], [], []⟩

/-- A process started as `app -h` with an empty environment. -/
def worldHelpNoEnv : World := ⟨"app", ["-h"], [], [], [], []⟩

/-- A process started as `app` with no arguments and an empty environment, in which a
string flag `config` is already registered. -/
def worldConfigTaken : World := ⟨"app", [], [stringFlag "config"], [], [], []⟩

/-! ## Sample documents -/

/-- A sample text for the failures of the decoder. -/
def sampleRender : DecodeError → String
  | .requiredFieldMissing field => "required field " ++ field ++ " has no value"
  | .decodeError field rawValue => "field " ++ field ++ " cannot hold " ++ rawValue

/-- A `Database` document that declares every key except `port`. -/
def docDatabaseNoPort : Document :=
  [("type", "postgres"), ("host", "db.local"), ("name", "app"), ("user", "svc"),
    ("password", "secret"), ("schema", "core"), ("migrationPath", "/migrations"),
    ("maxAttempts", "5"), ("attemptDelay", "2s")]

/-- A `Database` document that declares every required key and no `schema`. -/
def docDatabaseNoSchema : Document :=
  [("type", "postgres"), ("host", "db.local"), ("port", "5432"), ("name", "app"),
    ("user", "svc"), ("password", "secret"), ("migrationPath", "/migrations"),
    ("maxAttempts", "5"), ("attemptDelay", "2s")]

/-- A `KafkaProducer` document that declares only `brokers`. -/
def docBrokersOnly : Document := [("brokers", "a:9092,b:9092")]

/-- A process started as `app -config /etc/db.yaml` whose file is `docDatabaseNoPort`. -/
def worldDatabaseNoPort : World :=
  ⟨"app", ["-config", "/etc/db.yaml"], [], [],
    [("/etc/db.yaml", .file (some docDatabaseNoPort))], []⟩

/-- The accessor `Env()` of the sample schemas: the constant `prod`. -/
def constProd : Config Record := ⟨fun _ => "prod"⟩

/-! ## Facts about the command line -/

theorem lookupFlag_append_fresh (l : List FlagDef) (name : String)
    (h : lookupFlag l name = none) :
    lookupFlag (l ++ [stringFlag name]) name = some (stringFlag name) := by
  induction l with
  | nil => simp [lookupFlag, stringFlag]
  | cons a l ih =>
    by_cases ha : a.name = name
    · simp [lookupFlag, ha] at h
    · simp only [lookupFlag, ha, if_false] at h
      simp [lookupFlag, ha, ih h]

/-- With no arguments the flag `config` keeps its default, the empty text. -/
theorem configFlagValue_absent (w : World) (hargs : w.args = []) :
    configFlagValue w = .ok "" := by
  simp [configFlagValue, hargs, parseArgs]

/-- The command line `-config f` gives the flag `config` the value `f`. -/
theorem configFlagValue_given (w : World) (f : String)
    (hfresh : lookupFlag w.formal "config" = none) (hargs : w.args = ["-config", f]) :
    configFlagValue w = .ok f := by
  have hshape : argShape "-config".data = .flag "config" none := by decide
  have hl := lookupFlag_append_fresh _ _ hfresh
  simp only [configFlagValue, hargs, parseArgs, hshape, hl]
  simp [stringFlag]

/-- The command line `-config=f` gives the flag `config` the value `f`. -/
theorem configFlagValue_given_eq (w : World) (f : String)
    (hfresh : lookupFlag w.formal "config" = none)
    (hargs : w.args = [String.mk ("-config=".data ++ f.data)]) :
    configFlagValue w = .ok f := by
  have hshape : argShape ("-config=".data ++ f.data) = .flag "config" (some f) := by
    simp [argShape, nameValue, cutEq]
  have hl := lookupFlag_append_fresh _ _ hfresh
  simp only [configFlagValue, hargs, parseArgs, hshape, hl]
  simp [stringFlag]

/-! ## Facts about the source locator -/

theorem lookupFlag_append_self (l : List FlagDef) (d : FlagDef) :
    ∃ d2, lookupFlag (l ++ [d]) d.name = some d2 := by
  induction l with
  | nil => exact ⟨d, by simp [lookupFlag]⟩
  | cons a l ih =>
    by_cases h : a.name = d.name
    · exact ⟨a, by simp [lookupFlag, h]⟩
    · obtain ⟨d2, hd2⟩ := ih
      exact ⟨d2, by simp [lookupFlag, h, hd2]⟩

/-- When `config` is already registered, `fetchConfigPath` panics in `flag.StringVar`. -/
theorem fetchConfigPath_registered (w : World) (d : FlagDef)
    (h : lookupFlag w.formal "config" = some d) :
    fetchConfigPath w
      = (.panic (redefinedMsg w.progName "config"), w.log (.flagVar "config")) := by
  simp [fetchConfigPath, flagStringVar, h]

/-- When `config` is not yet registered, `fetchConfigPath` is decided by the command
line and, for an empty flag value, by `CONFIG_PATH`. -/
theorem fetchConfigPath_fresh (w : World) (h : lookupFlag w.formal "config" = none) :
    fetchConfigPath w =
      match configFlagValue w with
      | .ok v =>
        if v = "" then
          (.ret ((assoc w.environ "CONFIG_PATH").getD ""),
            (afterParse w).log (.getenv "CONFIG_PATH"))
        else (.ret v, afterParse w)
      | .error .help => (.exit 0, afterParse w)
      | .error .failed => (.exit 2, afterParse w) := by
  simp only [fetchConfigPath, flagStringVar, h, flagParse, World.log, configFlagValue,
    afterParse, osGetenv]
  cases hp : parseArgs (w.formal ++ [stringFlag "config"]) w.args "" with
  | error e => cases e <;> simp
  | ok v => by_cases hv : v = "" <;> simp [hv]

/-- A returning `fetchConfigPath` found `config` unregistered. -/
theorem fetchConfigPath_ret_fresh (w : World) (path : String)
    (h : (fetchConfigPath w).1 = .ret path) : lookupFlag w.formal "config" = none := by
  cases hl : lookupFlag w.formal "config" with
  | none => rfl
  | some d => rw [fetchConfigPath_registered w d hl] at h; cases h

/-- What a returning `fetchConfigPath` leaves behind: the filesystem, the environment and
the program name are untouched, `config` is appended to the registry, and the trace
grows by the flag calls and at most one read of `CONFIG_PATH`. -/
theorem fetchConfigPath_ret_state (w : World) (path : String)
    (h : (fetchConfigPath w).1 = .ret path) :
    (fetchConfigPath w).2.files = w.files ∧ (fetchConfigPath w).2.environ = w.environ ∧
    (fetchConfigPath w).2.progName = w.progName ∧
    (fetchConfigPath w).2.formal = w.formal ++ [stringFlag "config"] ∧
    ((fetchConfigPath w).2.trace = w.trace ++ [.flagVar "config", .flagParse] ∨
     (fetchConfigPath w).2.trace
       = w.trace ++ [.flagVar "config", .flagParse, .getenv "CONFIG_PATH"]) := by
  have hf := fetchConfigPath_ret_fresh w path h
  rw [fetchConfigPath_fresh w hf] at h ⊢
  cases hp : configFlagValue w with
  | error e => rw [hp] at h; cases e <;> cases h
  | ok v => by_cases hv : v = "" <;> simp [hv, afterParse, World.log]

/-! ## Claims -/

/-- C1 fails as stated.  In the process `app -verbose` with `CONFIG_PATH=/env.yaml` the
flag `config` is absent and the variable is set, yet `fetchConfigPath` ends the process
with status 2 in `flag.Parse` instead of returning `/env.yaml`.  In the state a first
invocation of `app -config /etc/app.yaml` left, the command line still gives the flag the
value `/etc/app.yaml`, yet `fetchConfigPath` panics with the duplicate-registration
message instead of returning it. -/
theorem fetchConfigPath_precedence_counterexample :
    worldUnknownFlag.args = ["-verbose"] ∧
    (assoc worldUnknownFlag.environ "CONFIG_PATH").getD "" = "/env.yaml" ∧
    (fetchConfigPath worldUnknownFlag).1 = .exit 2 ∧
    (fetchConfigPath worldUnknownFlag).1 ≠ .ret "/env.yaml" ∧
    configFlagValue (fetchConfigPath worldFlagAndEnv).2 = .ok "/etc/app.yaml" ∧
    (fetchConfigPath (fetchConfigPath worldFlagAndEnv).2).1
      = .panic "app flag redefined: config" ∧
    (fetchConfigPath (fetchConfigPath worldFlagAndEnv).2).1 ≠ .ret "/etc/app.yaml" := by
  refine ⟨by decide, by decide, by decide, by decide, by decide, by decide, by decide⟩

/-- C1, amended. Source precedence: in a process whose flag registry does not yet hold
`config` and whose command line parses, if the command line gives the flag `config` the
value `f` and `CONFIG_PATH` has the value `e` (the empty text when unset), then
`fetchConfigPath` returns `f` when `f` is non-empty and `e` otherwise; `CONFIG_PATH` is
read exactly when `f` is empty. -/
theorem fetchConfigPath_precedence (w : World) (f e : String)
    (hfresh : lookupFlag w.formal "config" = none)
    (hflag : configFlagValue w = .ok f)
    (henv : (assoc w.environ "CONFIG_PATH").getD "" = e) :
    (fetchConfigPath w).1 = .ret (if f ≠ "" then f else e) ∧
    (fetchConfigPath w).2.trace
      = w.trace ++ [.flagVar "config", .flagParse]
          ++ (if f ≠ "" then [] else [.getenv "CONFIG_PATH"]) := by
  rw [fetchConfigPath_fresh w hfresh, hflag]
  by_cases hv : f = "" <;> simp [hv, henv, afterParse, World.log]

/-- C1, amended, at a concrete process: with `-config /etc/app.yaml` on the command line and
`CONFIG_PATH=/env.yaml`, the flag wins. -/
theorem fetchConfigPath_precedence_witness :
    (fetchConfigPath worldFlagAndEnv).1 = .ret "/etc/app.yaml" ∧
    (fetchConfigPath worldFlagAndEnv).2.trace = [.flagVar "config", .flagParse] :=
  fetchConfigPath_precedence worldFlagAndEnv "/etc/app.yaml" "/env.yaml" rfl rfl
    (by decide)

/-- C2 fails as stated.  In three processes the flag `config` is absent and
`CONFIG_PATH` is unset, and `MustLoad` does not end with the path-not-found panic:
`app -verbose` ends with status 2 and `app -h` with status 0, both in `flag.Parse`, and
a process in which a flag `config` is already registered panics with the
duplicate-registration message. -/
theorem MustLoad_pathNotFound_counterexample :
    (assoc worldUnknownFlagNoEnv.environ "CONFIG_PATH" = none ∧
      (MustLoad sampleExternals worldUnknownFlagNoEnv).1 = .exit 2) ∧
    (assoc worldHelpNoEnv.environ "CONFIG_PATH" = none ∧
      (MustLoad sampleExternals worldHelpNoEnv).1 = .exit 0) ∧
    (assoc worldConfigTaken.environ "CONFIG_PATH" = none ∧
      configFlagValue worldConfigTaken = .ok "" ∧
      (MustLoad sampleExternals worldConfigTaken).1 = .panic "app flag redefined: config" ∧
      (MustLoad sampleExternals worldConfigTaken).1 ≠ .panic "Путь конфига не найден") := by
  refine ⟨⟨by decide, by decide⟩, ⟨by decide, by decide⟩,
    ⟨by decide, by decide, by decide, by decide⟩⟩

/-- C2, amended. PathNotFound: in a process whose flag registry does not yet hold
`config` and whose command line parses, if the
command line leaves the flag `config` absent or empty and `CONFIG_PATH` is unset or
empty, `MustLoad` panics with the path-not-found message, and the only calls it has made
are the flag registration, the flag parse and the read of `CONFIG_PATH`: no filesystem
check, no decoding, no environment construction. -/
theorem MustLoad_pathNotFound {TConfig TEnv : Type} [Config TConfig]
    (X : Externals TConfig TEnv) (w : World)
    (hfresh : lookupFlag w.formal "config" = none)
    (hflag : configFlagValue w = .ok "")
    (henv : (assoc w.environ "CONFIG_PATH").getD "" = "") :
    (MustLoad X w).1 = .panic "Путь конфига не найден" ∧
    (MustLoad X w).2.trace
      = w.trace ++ [.flagVar "config", .flagParse, .getenv "CONFIG_PATH"] := by
  simp [MustLoad, fetchConfigPath_fresh w hfresh, hflag, henv, afterParse, World.log]

/-- C2, amended, at a concrete process: no arguments, empty environment. -/
theorem MustLoad_pathNotFound_witness :
    (MustLoad sampleExternals worldBare).1 = .panic "Путь конфига не найден" ∧
    (MustLoad sampleExternals worldBare).2.trace
      = [.flagVar "config", .flagParse, .getenv "CONFIG_PATH"] :=
  MustLoad_pathNotFound sampleExternals worldBare rfl rfl (by decide)

/-- C3. FileNotFound: when the source locator returns a non-empty path that does not
exist on the filesystem (`os.Stat` reports an error), `MustLoad` panics with the
file-not-found message; after the locator it has made the `os.Stat` call only, so the
decoder and the environment factory were not invoked. -/
theorem MustLoad_fileNotFound {TConfig TEnv : Type} [Config TConfig]
    (X : Externals TConfig TEnv) (w : World) (path : String)
    (hloc : (fetchConfigPath w).1 = .ret path) (hne : path ≠ "")
    (hstat : assoc w.files path = none) :
    (MustLoad X w).1 = .panic "Файл конфига не найден" ∧
    (MustLoad X w).2.trace = (fetchConfigPath w).2.trace ++ [.stat path] ∧
    (∀ p, Event.readConfig p ∈ (MustLoad X w).2.trace → Event.readConfig p ∈ w.trace) ∧
    (∀ n, Event.newEnv n ∈ (MustLoad X w).2.trace → Event.newEnv n ∈ w.trace) := by
  obtain ⟨hfiles, -, -, -, htr⟩ := fetchConfigPath_ret_state w path hloc
  rcases hfw : fetchConfigPath w with ⟨o, w1⟩
  rw [hfw] at hloc hfiles htr
  simp only at hloc hfiles htr
  subst hloc
  have hs : assoc w1.files path = none := by rw [hfiles]; exact hstat
  have hM : MustLoad X w = (.panic "Файл конфига не найден", w1.log (.stat path)) := by
    simp [MustLoad, hfw, hne, osStat, hs]
  rw [hM]
  refine ⟨rfl, rfl, ?_, ?_⟩
  · intro p hp
    rcases htr with htr | htr <;> simpa [World.log, htr] using hp
  · intro n hn
    rcases htr with htr | htr <;> simpa [World.log, htr] using hn

/-- C3 at a concrete process: the flag names `/etc/app.yaml` and the filesystem is
empty. -/
theorem MustLoad_fileNotFound_witness :
    (MustLoad sampleExternals worldFlagAndEnv).1 = .panic "Файл конфига не найден" ∧
    (MustLoad sampleExternals worldFlagAndEnv).2.trace
      = [.flagVar "config", .flagParse, .stat "/etc/app.yaml"] :=
  have h := MustLoad_fileNotFound sampleExternals worldFlagAndEnv "/etc/app.yaml"
    (by decide) (by decide) (by decide)
  ⟨h.1, h.2.1.trans (by decide)⟩

/-- `MustLoad` after a returning source locator, stage by stage. -/
theorem MustLoad_located {TConfig TEnv : Type} [Config TConfig]
    (X : Externals TConfig TEnv) (w : World) (path : String)
    (hloc : (fetchConfigPath w).1 = .ret path) :
    MustLoad X w =
      if path = "" then (.panic "Путь конфига не найден", (fetchConfigPath w).2)
      else if (assoc (fetchConfigPath w).2.files path).isSome = false then
        (.panic "Файл конфига не найден", (fetchConfigPath w).2.log (.stat path))
      else
        match X.ReadConfig ((fetchConfigPath w).2.log (.stat path)) path X.zero with
        | .error err =>
          (.panic ("Ошибка загрузки конфига: " ++ err),
            ((fetchConfigPath w).2.log (.stat path)).log (.readConfig path))
        | .ok cfg =>
          match X.NewEnv (Config.Env cfg) with
          | .error err =>
            (.panic ("Ошибка создания окружения: " ++ err),
              (((fetchConfigPath w).2.log (.stat path)).log (.readConfig path)).log
                (.newEnv (Config.Env cfg)))
          | .ok env =>
            (.ret (cfg, env),
              (((fetchConfigPath w).2.log (.stat path)).log (.readConfig path)).log
                (.newEnv (Config.Env cfg))) := by
  rcases hfw : fetchConfigPath w with ⟨o, w1⟩
  rw [hfw] at hloc
  simp only at hloc
  subst hloc
  by_cases hp : path = ""
  · simp [MustLoad, hfw, hp]
  · cases hs : (assoc w1.files path).isSome with
    | false => simp [MustLoad, hfw, hp, osStat, hs]
    | true =>
      cases hr : X.ReadConfig (w1.log (.stat path)) path X.zero with
      | error err => simp [MustLoad, hfw, hp, osStat, hs, callReadConfig, hr]
      | ok cfg =>
        cases he : X.NewEnv (Config.Env cfg) with
        | error err => simp [MustLoad, hfw, hp, osStat, hs, callReadConfig, hr, callNewEnv, he]
        | ok env => simp [MustLoad, hfw, hp, osStat, hs, callReadConfig, hr, callNewEnv, he]

/-- `MustLoad` does not return when the source locator does not. -/
theorem MustLoad_not_located {TConfig TEnv : Type} [Config TConfig]
    (X : Externals TConfig TEnv) (w : World) :
    (∀ m, (fetchConfigPath w).1 = .panic m →
      MustLoad X w = (.panic m, (fetchConfigPath w).2)) ∧
    (∀ c, (fetchConfigPath w).1 = .exit c →
      MustLoad X w = (.exit c, (fetchConfigPath w).2)) := by
  rcases hfw : fetchConfigPath w with ⟨o, w1⟩
  constructor
  · intro m hm
    simp only at hm
    subst hm
    simp [MustLoad, hfw]
  · intro c hc
    simp only at hc
    subst hc
    simp [MustLoad, hfw]

/-- C4. Loader success postcondition: whenever `MustLoad` returns the pair `(cfg, env)`,
the source locator returned a non-empty, existing path, `cfg` is what the decoder
produced for that path from the zero value of the schema type, and `env` is what the
environment factory `NewEnv` produced for `cfg.Env()` taken on the decoded schema. -/
theorem MustLoad_success_post {TConfig TEnv : Type} [Config TConfig]
    (X : Externals TConfig TEnv) (w : World) (cfg : TConfig) (env : TEnv)
    (hret : (MustLoad X w).1 = .ret (cfg, env)) :
    ∃ path, (fetchConfigPath w).1 = .ret path ∧ path ≠ "" ∧
      (assoc w.files path).isSome = true ∧
      X.ReadConfig ((fetchConfigPath w).2.log (.stat path)) path X.zero = .ok cfg ∧
      X.NewEnv (Config.Env cfg) = .ok env := by
  cases hl : (fetchConfigPath w).1 with
  | panic m => rw [(MustLoad_not_located X w).1 m hl] at hret; cases hret
  | exit c => rw [(MustLoad_not_located X w).2 c hl] at hret; cases hret
  | ret path =>
    have hfiles := (fetchConfigPath_ret_state w path hl).1
    rw [MustLoad_located X w path hl] at hret
    refine ⟨path, rfl, ?_⟩
    by_cases hp : path = ""
    · simp [hp] at hret
    · cases hs : (assoc (fetchConfigPath w).2.files path).isSome with
      | false => simp [hp, hs] at hret
      | true =>
        cases hr : X.ReadConfig ((fetchConfigPath w).2.log (.stat path)) path X.zero with
        | error err => simp [hp, hs, hr] at hret
        | ok c =>
          cases he : X.NewEnv (Config.Env c) with
          | error err => simp [hp, hs, hr, he] at hret
          | ok e =>
            simp [hp, hs, hr, he] at hret
            obtain ⟨rfl, rfl⟩ := hret
            rw [hfiles] at hs
            exact ⟨hp, hs, rfl, he⟩

/-- C4 at a concrete process: the file at the flag's path declares `env: prod`, the
factory accepts `prod`, and `MustLoad` returns the decoded schema with the factory's
value for `prod`. -/
theorem MustLoad_success_post_witness :
    (MustLoad sampleExternals worldProd).1 = .ret (⟨"prod"⟩, "prod") ∧
    ∃ path, (fetchConfigPath worldProd).1 = .ret path ∧ path ≠ "" ∧
      (assoc worldProd.files path).isSome = true ∧
      sampleExternals.ReadConfig ((fetchConfigPath worldProd).2.log (.stat path)) path
        sampleExternals.zero = .ok ⟨"prod"⟩ ∧
      sampleExternals.NewEnv (Config.Env (⟨"prod"⟩ : NameOnly)) = .ok "prod" :=
  ⟨by decide, MustLoad_success_post sampleExternals worldProd ⟨"prod"⟩ "prod" (by decide)⟩

/-- The stages after the source locator only extend the trace: the flag registry and the
program name are those the locator left. -/
theorem MustLoad_registry {TConfig TEnv : Type} [Config TConfig]
    (X : Externals TConfig TEnv) (w : World) (path : String)
    (hloc : (fetchConfigPath w).1 = .ret path) :
    (MustLoad X w).2.formal = (fetchConfigPath w).2.formal ∧
    (MustLoad X w).2.progName = (fetchConfigPath w).2.progName := by
  rw [MustLoad_located X w path hloc]
  by_cases hp : path = ""
  · simp [hp]
  · cases hs : (assoc (fetchConfigPath w).2.files path).isSome with
    | false => simp [hp, hs, World.log]
    | true =>
      cases hr : X.ReadConfig ((fetchConfigPath w).2.log (.stat path)) path X.zero with
      | error err => simp [hp, hs, hr, World.log]
      | ok c =>
        cases he : X.NewEnv (Config.Env c) with
        | error err => simp [hp, hs, hr, he, World.log]
        | ok e => simp [hp, hs, hr, he, World.log]

/-- C5. Fail-fast propagation: `MustLoad` returns a value exactly when the four stages
succeed (a non-empty path is located, the file exists, the decoder succeeds, and
`NewEnv(cfg.Env())` succeeds).  Otherwise it ends with the failure of the first failing
stage, in the order locate, file-exists, decode, environment, and its final state shows
that no later stage was run: a decode failure leaves a trace that ends with the decoder
call, and a rejected environment name ends in a panic, never in a returned value. -/
theorem MustLoad_fail_fast {TConfig TEnv : Type} [Config TConfig]
    (X : Externals TConfig TEnv) (w : World) :
    ((∃ r, (MustLoad X w).1 = .ret r) ↔
      ∃ path cfg env, (fetchConfigPath w).1 = .ret path ∧ path ≠ "" ∧
        (assoc w.files path).isSome = true ∧
        X.ReadConfig ((fetchConfigPath w).2.log (.stat path)) path X.zero = .ok cfg ∧
        X.NewEnv (Config.Env cfg) = .ok env) ∧
    (∀ m, (fetchConfigPath w).1 = .panic m →
      MustLoad X w = (.panic m, (fetchConfigPath w).2)) ∧
    (∀ c, (fetchConfigPath w).1 = .exit c →
      MustLoad X w = (.exit c, (fetchConfigPath w).2)) ∧
    (∀ path, (fetchConfigPath w).1 = .ret path →
      (path = "" →
        MustLoad X w = (.panic "Путь конфига не найден", (fetchConfigPath w).2)) ∧
      (path ≠ "" → (assoc w.files path).isSome = false →
        MustLoad X w
          = (.panic "Файл конфига не найден", (fetchConfigPath w).2.log (.stat path))) ∧
      (path ≠ "" → (assoc w.files path).isSome = true →
        ∀ err,
          X.ReadConfig ((fetchConfigPath w).2.log (.stat path)) path X.zero = .error err →
          MustLoad X w
            = (.panic ("Ошибка загрузки конфига: " ++ err),
                ((fetchConfigPath w).2.log (.stat path)).log (.readConfig path))) ∧
      (path ≠ "" → (assoc w.files path).isSome = true →
        ∀ cfg err,
          X.ReadConfig ((fetchConfigPath w).2.log (.stat path)) path X.zero = .ok cfg →
          X.NewEnv (Config.Env cfg) = .error err →
          MustLoad X w
            = (.panic ("Ошибка создания окружения: " ++ err),
                (((fetchConfigPath w).2.log (.stat path)).log (.readConfig path)).log
                  (.newEnv (Config.Env cfg))))) := by
  refine ⟨⟨?_, ?_⟩, (MustLoad_not_located X w).1, (MustLoad_not_located X w).2, ?_⟩
  · rintro ⟨⟨cfg, env⟩, hr⟩
    cases hl : (fetchConfigPath w).1 with
    | panic m => rw [(MustLoad_not_located X w).1 m hl] at hr; cases hr
    | exit c => rw [(MustLoad_not_located X w).2 c hl] at hr; cases hr
    | ret path =>
      have hfiles := (fetchConfigPath_ret_state w path hl).1
      rw [MustLoad_located X w path hl] at hr
      by_cases hp : path = ""
      · simp [hp] at hr
      · cases hs : (assoc (fetchConfigPath w).2.files path).isSome with
        | false => simp [hp, hs] at hr
        | true =>
          cases hrd : X.ReadConfig ((fetchConfigPath w).2.log (.stat path)) path X.zero with
          | error err => simp [hp, hs, hrd] at hr
          | ok c =>
            cases he : X.NewEnv (Config.Env c) with
            | error err => simp [hp, hs, hrd, he] at hr
            | ok e =>
              rw [hfiles] at hs
              exact ⟨path, c, e, rfl, hp, hs, hrd, he⟩
  · rintro ⟨path, cfg, env, hl, hp, hs, hrd, he⟩
    have hfiles := (fetchConfigPath_ret_state w path hl).1
    rw [← hfiles] at hs
    refine ⟨(cfg, env), ?_⟩
    rw [MustLoad_located X w path hl]
    simp [hp, hs, hrd, he]
  · intro path hl
    have hfiles := (fetchConfigPath_ret_state w path hl).1
    rw [MustLoad_located X w path hl, hfiles]
    refine ⟨?_, ?_, ?_, ?_⟩
    · intro hp; simp [hp]
    · intro hp hs; simp [hp, hs]
    · intro hp hs err hrd; simp [hp, hs, hrd]
    · intro hp hs cfg err hrd he; simp [hp, hs, hrd, he]

/-- C5 at concrete processes: a file that declares `env: prod` loads, and one that
declares `env: qa`, which the factory rejects, ends in the environment panic. -/
theorem MustLoad_fail_fast_witness :
    (∃ r, (MustLoad sampleExternals worldProd).1 = .ret r) ∧
    (MustLoad sampleExternals worldQa).1
      = .panic "Ошибка создания окружения: unknown environment qa" :=
  ⟨(MustLoad_fail_fast sampleExternals worldProd).1.2
      ⟨"/etc/app.yaml", ⟨"prod"⟩, "prod", by decide, by decide, by decide, rfl, rfl⟩,
    by decide⟩

/-- C6 fails as stated: in the process `app -config /etc/app.yaml` the first invocation
of `fetchConfigPath` returns the flag's path, and the second invocation, run in the state
the first one left, panics with the duplicate-registration message of the flag package
instead of resolving the same path. -/
theorem fetchConfigPath_twice_counterexample :
    (fetchConfigPath worldFlagAndEnv).1 = .ret "/etc/app.yaml" ∧
    (fetchConfigPath (fetchConfigPath worldFlagAndEnv).2).1
      = .panic "app flag redefined: config" ∧
    (fetchConfigPath (fetchConfigPath worldFlagAndEnv).2).1 ≠ .ret "/etc/app.yaml" := by
  decide

/-- Every state after a first, returning invocation of the source locator holds the
registry that invocation left and the same program name: a later invocation panics
before it registers anything. -/
theorem laterState_registry (w0 : World) (path : String)
    (h : (fetchConfigPath w0).1 = .ret path) (w : World) (hw : LaterState w0 w) :
    w.formal = w0.formal ++ [stringFlag "config"] ∧ w.progName = w0.progName := by
  obtain ⟨-, -, hname, hformal, -⟩ := fetchConfigPath_ret_state w0 path h
  have hreg : ∀ w2 : World, w2.formal = w0.formal ++ [stringFlag "config"] →
      fetchConfigPath w2
        = (.panic (redefinedMsg w2.progName "config"), w2.log (.flagVar "config")) := by
    intro w2 hf
    obtain ⟨d, hd⟩ := lookupFlag_append_self w0.formal (stringFlag "config")
    exact fetchConfigPath_registered w2 d (by rw [hf]; exact hd)
  induction hw with
  | afterFetch => exact ⟨hformal, hname⟩
  | afterLoad X =>
    obtain ⟨hf1, hn1⟩ := MustLoad_registry X w0 path h
    exact ⟨hf1.trans hformal, hn1.trans hname⟩
  | fetch _ ih =>
    rw [hreg _ ih.1]
    exact ih
  | load X _ ih =>
    have h2 := hreg _ ih.1
    rw [(MustLoad_not_located X _).1 _ (by rw [h2]), h2]
    exact ih

/-- C6, amended. `fetchConfigPath` registers the flag `config` on every invocation,
without a guard.  An invocation that returns found the flag unregistered and registered
it once; in every state the process reaches afterwards, however many invocations of
`fetchConfigPath` or of `MustLoad` (for any schema) lie in between, `fetchConfigPath`
panics with the duplicate-registration message of the flag package, and so does
`MustLoad` for any schema. -/
theorem fetchConfigPath_registers_each_call (w0 : World) (path : String)
    (h : (fetchConfigPath w0).1 = .ret path) :
    lookupFlag w0.formal "config" = none ∧
    (fetchConfigPath w0).2.formal = w0.formal ++ [stringFlag "config"] ∧
    ∀ w, LaterState w0 w →
      (fetchConfigPath w).1 = .panic (redefinedMsg w0.progName "config") ∧
      ∀ (TConfig TEnv : Type) [Config TConfig] (X : Externals TConfig TEnv),
        (MustLoad X w).1 = .panic (redefinedMsg w0.progName "config") := by
  refine ⟨fetchConfigPath_ret_fresh w0 path h,
    (fetchConfigPath_ret_state w0 path h).2.2.2.1, ?_⟩
  intro w hw
  obtain ⟨hf, hn⟩ := laterState_registry w0 path h w hw
  obtain ⟨d, hd⟩ := lookupFlag_append_self w0.formal (stringFlag "config")
  have hp : fetchConfigPath w
      = (.panic (redefinedMsg w.progName "config"), w.log (.flagVar "config")) :=
    fetchConfigPath_registered w d (by rw [hf]; exact hd)
  have hp1 : (fetchConfigPath w).1 = .panic (redefinedMsg w0.progName "config") := by
    rw [hp, hn]
  refine ⟨hp1, ?_⟩
  intro TConfig TEnv _ X
  rw [(MustLoad_not_located X w).1 _ hp1]

/-- C6, amended, at a concrete process: after a first load of `app -config
/etc/app.yaml`, a second load panics with `app flag redefined: config`, and so does a
third load after it. -/
theorem fetchConfigPath_registers_each_call_witness :
    (fetchConfigPath worldProd).1 = .ret "/etc/app.yaml" ∧
    (MustLoad sampleExternals (MustLoad sampleExternals worldProd).2).1
      = .panic "app flag redefined: config" ∧
    (MustLoad sampleExternals
        (MustLoad sampleExternals (MustLoad sampleExternals worldProd).2).2).1
      = .panic "app flag redefined: config" :=
  ⟨by decide,
    ((fetchConfigPath_registers_each_call worldProd "/etc/app.yaml" (by decide)).2.2
      _ (.afterLoad sampleExternals)).2 NameOnly String sampleExternals,
    ((fetchConfigPath_registers_each_call worldProd "/etc/app.yaml" (by decide)).2.2
      _ (.load sampleExternals (.afterLoad sampleExternals))).2 NameOnly String
      sampleExternals⟩

/-! ## Fuel is never exhausted -/

theorem skipSpaces_length (l : List Char) : (skipSpaces l).length ≤ l.length := by
  induction l with
  | nil => simp [skipSpaces]
  | cons c cs ih =>
    by_cases h : c = ' '
    · simp only [skipSpaces, h, if_true, List.length_cons]; omega
    · simp [skipSpaces, h]

theorem scanKey_length (l : List Char) : (scanKey l).2.length ≤ l.length := by
  induction l with
  | nil => simp [scanKey]
  | cons c cs ih =>
    by_cases h : isKeyChar c = true
    · simp only [scanKey, h, if_true, List.length_cons]; omega
    · simp [scanKey, h]

theorem scanQuoted_length_aux (n : Nat) :
    ∀ l v r : List Char, l.length ≤ n → scanQuoted l = some (v, r) → r.length < l.length := by
  induction n with
  | zero =>
    intro l v r hl h
    cases l with
    | nil => simp [scanQuoted] at h
    | cons c cs => simp at hl
  | succ n ih =>
    intro l v r hl h
    rcases l with _ | ⟨c, _ | ⟨d, ds⟩⟩
    · simp [scanQuoted] at h
    · by_cases hq : c = '"'
      · simp [scanQuoted, hq] at h
        simp [← h.2]
      · by_cases hb : c = '\\' <;> simp [scanQuoted, hq, hb] at h
    · simp only [List.length_cons] at hl ⊢
      by_cases hq : c = '"'
      · simp [scanQuoted, hq] at h
        simp [← h.2]
      · by_cases hb : c = '\\'
        · cases hs : scanQuoted ds with
          | none => simp [scanQuoted, hq, hb, hs] at h
          | some p =>
            obtain ⟨v2, r2⟩ := p
            simp [scanQuoted, hb, hs] at h
            have := ih ds v2 r2 (by omega) hs
            rw [← h.2]; omega
        · cases hs : scanQuoted (d :: ds) with
          | none => simp [scanQuoted, hq, hb, hs] at h
          | some p =>
            obtain ⟨v2, r2⟩ := p
            simp [scanQuoted, hq, hb, hs] at h
            have := ih (d :: ds) v2 r2 (by simp; omega) hs
            rw [← h.2]; simp at this; omega

theorem scanQuoted_length (l v r : List Char) (h : scanQuoted l = some (v, r)) :
    r.length < l.length :=
  scanQuoted_length_aux l.length l v r (Nat.le_refl _) h

/-- The loop of the tag lookup gives the same result with any fuel above the length of
the tag: the fuel of `tagLookup` is never exhausted. -/
theorem tagLookupAux_fuel (n : Nat) :
    ∀ (m : Nat) (tag key : List Char), tag.length < n → tag.length < m →
      tagLookupAux n tag key = tagLookupAux m tag key := by
  induction n with
  | zero => intro m tag key h; omega
  | succ n ih =>
    intro m tag key hn hm
    cases m with
    | zero => omega
    | succ m =>
      have h1 := skipSpaces_length tag
      have h2 := scanKey_length (skipSpaces tag)
      rcases hk : scanKey (skipSpaces tag) with ⟨name, rest⟩
      rw [hk] at h2
      simp only at h2
      cases name with
      | nil => simp [tagLookupAux, hk]
      | cons a name =>
        rcases rest with _ | ⟨c1, _ | ⟨c2, rest⟩⟩
        · simp [tagLookupAux, hk]
        · simp [tagLookupAux, hk]
        · by_cases hc : c1 = ':' ∧ c2 = '"'
          · obtain ⟨rfl, rfl⟩ := hc
            cases hs : scanQuoted rest with
            | none => simp [tagLookupAux, hk, hs]
            | some p =>
              obtain ⟨v, rest2⟩ := p
              have h3 := scanQuoted_length rest v rest2 hs
              simp only [List.length_cons] at h2
              have := ih m rest2 key (by omega) (by omega)
              simp [tagLookupAux, hk, hs, this]
          · have : tagLookupAux (n + 1) tag key = none := by
              simp only [tagLookupAux, hk]
              split
              · rfl
              · rename_i heq
                simp at heq
                exact absurd ⟨heq.2.1, heq.2.2.1⟩ hc
              · rfl
            rw [this]
            simp only [tagLookupAux, hk]
            split
            · rfl
            · rename_i heq
              simp at heq
              exact absurd ⟨heq.2.1, heq.2.2.1⟩ hc
            · rfl

theorem takeDigits_length (l : List Char) :
    (takeDigits l).1.length + (takeDigits l).2.length = l.length := by
  induction l with
  | nil => simp [takeDigits]
  | cons c cs ih =>
    by_cases h : (digitVal c).isSome = true
    · simp only [takeDigits, h, if_true, List.length_cons]; omega
    · simp [takeDigits, h]

theorem takeUnit_length (l : List Char) : (takeUnit l).2.length ≤ l.length := by
  induction l with
  | nil => simp [takeUnit]
  | cons c cs ih =>
    by_cases h : c = '.' ∨ (digitVal c).isSome = true
    · simp [takeUnit, h]
    · simp only [takeUnit, h, if_false, List.length_cons]; omega

theorem fracPart_length (l : List Char) :
    (fracPart l).1.length + (fracPart l).2.length ≤ l.length := by
  cases l with
  | nil => simp [fracPart]
  | cons d ds =>
    by_cases h : d = '.'
    · have := takeDigits_length ds
      simp only [fracPart, h, if_true, List.length_cons]; omega
    · simp [fracPart, h]

/-- A duration group consumes at least one character. -/
theorem durationGroup_length (s rest : List Char) (v : Nat)
    (h : durationGroup s = some (v, rest)) : rest.length < s.length := by
  unfold durationGroup at h
  have h1 := takeDigits_length s
  have h2 := fracPart_length (takeDigits s).2
  have h3 := takeUnit_length (fracPart (takeDigits s).2).2
  split at h
  · cases h
  · rename_i hne
    split at h
    · simp only [Option.some.injEq, Prod.mk.injEq] at h
      rw [← h.2]
      have hpos : 0 < (takeDigits s).1.length + (fracPart (takeDigits s).2).1.length := by
        by_contra hc
        apply hne
        constructor
        · exact List.length_eq_zero.1 (by omega)
        · exact List.length_eq_zero.1 (by omega)
      omega
    · cases h

/-- The sum of the groups is the same with any fuel above the length of the text: the
fuel of `parseDuration` is never exhausted. -/
theorem durationGroups_fuel (n : Nat) :
    ∀ (m : Nat) (s : List Char) (acc : Nat), s.length < n → s.length < m →
      durationGroups n s acc = durationGroups m s acc := by
  induction n with
  | zero => intro m s acc h; omega
  | succ n ih =>
    intro m s acc hn hm
    cases m with
    | zero => omega
    | succ m =>
      cases s with
      | nil => simp [durationGroups]
      | cons c cs =>
        cases hg : durationGroup (c :: cs) with
        | none => simp [durationGroups, hg]
        | some p =>
          obtain ⟨v, rest⟩ := p
          have := durationGroup_length _ _ _ hg
          simp only [durationGroups, hg]
          exact ih m rest (acc + v) (by omega) (by omega)

/-! ## Facts about the decoder model -/

theorem splitAux_ne_nil (sep s : List Char) (k : Nat) (acc : List Char) :
    splitAux sep s k acc ≠ [] := by
  induction s generalizing k acc with
  | nil => simp [splitAux]
  | cons c cs ih =>
    cases k with
    | succ k => simpa [splitAux] using ih k acc
    | zero =>
      by_cases h : sep.isPrefixOf (c :: cs) = true
      · simp [splitAux, h]
      · simpa [splitAux, h] using ih 0 (c :: acc)

theorem intercalate_cons_of_ne_nil (sep x : List Char) (ys : List (List Char))
    (h : ys ≠ []) : List.intercalate sep (x :: ys) = x ++ sep ++ List.intercalate sep ys := by
  cases ys with
  | nil => exact absurd rfl h
  | cons y ys => simp [List.intercalate, List.intersperse]

/-- Joining the pieces of a split on a one-character delimiter with that delimiter gives
the text back. -/
theorem splitAux_intercalate (c : Char) (s acc : List Char) :
    List.intercalate [c] (splitAux [c] s 0 acc) = acc.reverse ++ s := by
  induction s generalizing acc with
  | nil => simp [splitAux, List.intercalate]
  | cons d cs ih =>
    by_cases h : c = d
    · subst h
      have hp : [c].isPrefixOf (c :: cs) = true := by simp [List.isPrefixOf]
      simp only [splitAux, hp, if_true]
      rw [intercalate_cons_of_ne_nil _ _ _ (splitAux_ne_nil _ _ _ _)]
      simp only [List.length_singleton, Nat.sub_self]
      rw [ih []]
      simp
    · have hp : [c].isPrefixOf (d :: cs) = false := by simp [List.isPrefixOf, h]
      simp only [splitAux, hp]
      rw [if_neg (by simp), ih (d :: acc)]
      simp

/-- No piece of a split on a one-character delimiter contains the delimiter. -/
theorem splitAux_no_sep (c : Char) (s acc : List Char) (hacc : c ∉ acc) :
    ∀ p ∈ splitAux [c] s 0 acc, c ∉ p := by
  induction s generalizing acc with
  | nil => simpa [splitAux] using hacc
  | cons d cs ih =>
    by_cases h : c = d
    · subst h
      have hp : [c].isPrefixOf (c :: cs) = true := by simp [List.isPrefixOf]
      simp only [splitAux, hp, if_true, List.length_singleton, Nat.sub_self]
      intro p hpm
      rcases List.mem_cons.1 hpm with rfl | hpm
      · simpa using hacc
      · exact ih [] (by simp) p hpm
    · have hp : [c].isPrefixOf (d :: cs) = false := by simp [List.isPrefixOf, h]
      simp only [splitAux, hp]
      rw [if_neg (by simp)]
      exact ih (d :: acc) (by simp [h, hacc])

/-- The text of every piece of `splitText`, as character lists. -/
theorem splitText_data (sep s : String) :
    (splitText sep s).map String.data = splitChars sep.data s.data := by
  simp [splitText, Function.comp_def]

/-- A field whose resolution fails makes the whole decoding fail. -/
theorem decodeFields_fails (environ : List (String × String)) (doc : Document)
    (dst : Record) (pre post : List FieldSpec) (fd : FieldSpec) (e : DecodeError)
    (h : resolveField environ doc fd = .error e) :
    ∃ e2, decodeFields environ doc dst (pre ++ fd :: post) = .error e2 := by
  induction pre with
  | nil => exact ⟨e, by simp [decodeFields, h]⟩
  | cons g pre ih =>
    obtain ⟨e2, he2⟩ := ih
    cases hg : resolveField environ doc g with
    | error eg => exact ⟨eg, by simp [decodeFields, hg]⟩
    | ok v => exact ⟨e2, by simp [decodeFields, hg, he2]⟩

/-- The failure reported is that of the first field, in declaration order, whose
resolution fails. -/
theorem decodeFields_first_failure (environ : List (String × String)) (doc : Document)
    (dst : Record) (pre post : List FieldSpec) (fd : FieldSpec) (e : DecodeError)
    (hpre : ∀ g ∈ pre, ∃ v, resolveField environ doc g = .ok v)
    (h : resolveField environ doc fd = .error e) :
    decodeFields environ doc dst (pre ++ fd :: post) = .error e := by
  induction pre with
  | nil => simp [decodeFields, h]
  | cons g pre ih =>
    obtain ⟨v, hv⟩ := hpre g (by simp)
    have := ih (fun g2 hg2 => hpre g2 (by simp [hg2]))
    simp [decodeFields, hv, this]

/-- A successful decoding holds, for every field, the value its resolution gave, or the
value of the destination when no source gave one. -/
theorem decodeFields_field (environ : List (String × String)) (doc : Document)
    (dst : Record) (fields : List FieldSpec) (fd : FieldSpec) (r : Record)
    (hmem : fd ∈ fields) (hnodup : (fields.map (fun f => f.name)).Nodup)
    (h : decodeFields environ doc dst fields = .ok r) :
    ∃ v, resolveField environ doc fd = .ok v ∧
      assoc r fd.name = some (v.getD ((assoc dst fd.name).getD (zeroValue fd.type))) := by
  induction fields generalizing r with
  | nil => cases hmem
  | cons g rest ih =>
    cases hg : resolveField environ doc g with
    | error e => simp [decodeFields, hg] at h
    | ok v =>
      cases hr : decodeFields environ doc dst rest with
      | error e => simp [decodeFields, hg, hr] at h
      | ok r2 =>
        simp [decodeFields, hg, hr] at h
        subst h
        simp only [List.map_cons, List.nodup_cons] at hnodup
        rcases List.mem_cons.1 hmem with rfl | hin
        · exact ⟨v, hg, by simp [assoc]⟩
        · obtain ⟨v2, hv2, ha⟩ := ih r2 hin hnodup.2 hr
          refine ⟨v2, hv2, ?_⟩
          have hne : g.name ≠ fd.name := by
            intro heq
            exact hnodup.1 (heq ▸ List.mem_map_of_mem (fun f => f.name) hin)
          simp [assoc, hne, ha]

/-- The decoder call of `MustLoad` for a struct type, on a located path whose file holds
a well-formed document. -/
theorem schemaReadConfig_located (render : DecodeError → String) (unreadable : String)
    (schema : List StructField) (w : World)
    (path : String) (doc : Document) (dst : Record)
    (hloc : (fetchConfigPath w).1 = .ret path)
    (hfile : assoc w.files path = some (.file (some doc))) :
    schemaReadConfig render unreadable schema ((fetchConfigPath w).2.log (.stat path))
        path dst =
      match decode schema w.environ doc dst with
      | .ok r => .ok r
      | .error e => .error (render e) := by
  obtain ⟨hf, he, -⟩ := fetchConfigPath_ret_state w path hloc
  simp [schemaReadConfig, World.log, hf, he, hfile]

/-- A failing decoder makes `MustLoad` panic with the load error. -/
theorem MustLoad_decode_error {TEnv : Type} [Config Record]
    (render : DecodeError → String) (unreadable : String) (schema : List StructField)
    (newEnv : String → Except String TEnv) (w : World) (path : String) (doc : Document)
    (e : DecodeError)
    (hloc : (fetchConfigPath w).1 = .ret path) (hne : path ≠ "")
    (hfile : assoc w.files path = some (.file (some doc)))
    (hdec : decode schema w.environ doc (zeroRecord schema) = .error e) :
    (MustLoad (schemaExternals render unreadable schema newEnv) w).1
      = .panic ("Ошибка загрузки конфига: " ++ render e) := by
  have hfiles := (fetchConfigPath_ret_state w path hloc).1
  have hrc := schemaReadConfig_located render unreadable schema w path doc
    (zeroRecord schema) hloc hfile
  rw [hdec] at hrc
  rw [MustLoad_located _ w path hloc]
  have hs : (assoc (fetchConfigPath w).2.files path).isSome = true := by
    rw [hfiles, hfile]; rfl
  simp only [hne, if_false, hs, schemaExternals]
  rw [hrc]
  simp

/-- C7 fails as stated: `Port` of `Database` is required, has no default and no override
variable, and the file that declares only `host: db.local` gives it no value; decoding
fails, but the failure names `Type`, the first required field without a value, and not
`Port`. -/
theorem decode_required_counterexample :
    (Database.map fieldSpec).find? (fun f => f.name = "Port")
      = some ⟨"Port", "port", .int, true, none, ",", []⟩ ∧
    assoc [("host", "db.local")] "port" = none ∧
    decode Database [] [("host", "db.local")] (zeroRecord Database)
      = .error (.requiredFieldMissing "Type") ∧
    decode Database [] [("host", "db.local")] (zeroRecord Database)
      ≠ .error (.requiredFieldMissing "Port") := by
  refine ⟨by decide, by decide, by decide, by decide⟩

/-- A field list whose every field resolves, in the decidable form `resolves`. -/
theorem resolves_of_all (environ : List (String × String)) (doc : Document)
    (l : List StructField)
    (h : l.all (fun g => resolves environ doc (fieldSpec g)) = true) :
    ∀ g ∈ l, ∃ v, resolveField environ doc (fieldSpec g) = .ok v := by
  intro g hg
  have hr : resolves environ doc (fieldSpec g) = true := List.all_eq_true.1 h g hg
  unfold resolves at hr
  cases hres : resolveField environ doc (fieldSpec g) with
  | ok v => exact ⟨v, rfl⟩
  | error e => rw [hres] at hr; cases hr

/-- C7, amended. For every struct type and every field of it that is required, has no
default, no override variable that is set and no value in the file, decoding fails and
`MustLoad` panics with the load error, whatever the other fields hold.  When every other
field of the struct resolves, the failure is `RequiredFieldMissing` naming that field.
The text of the failure is whatever the decoder renders it to (`render`). -/
theorem decode_required_missing {TEnv : Type} [Config Record]
    (render : DecodeError → String) (unreadable : String)
    (pre post : List StructField) (sf : StructField)
    (newEnv : String → Except String TEnv) (w : World) (path : String) (doc : Document)
    (hreq : (fieldSpec sf).required = true) (hdef : (fieldSpec sf).defValue = none)
    (henv : firstSet w.environ (fieldSpec sf).envList = none)
    (hval : assoc doc (fieldSpec sf).key = none)
    (hloc : (fetchConfigPath w).1 = .ret path) (hne : path ≠ "")
    (hfile : assoc w.files path = some (.file (some doc))) :
    (∃ e, decode (pre ++ sf :: post) w.environ doc (zeroRecord (pre ++ sf :: post))
            = .error e ∧
          (MustLoad (schemaExternals render unreadable (pre ++ sf :: post) newEnv) w).1
            = .panic ("Ошибка загрузки конфига: " ++ render e)) ∧
    ((pre ++ post).all (fun g => resolves w.environ doc (fieldSpec g)) = true →
      decode (pre ++ sf :: post) w.environ doc (zeroRecord (pre ++ sf :: post))
        = .error (.requiredFieldMissing sf.name) ∧
      (MustLoad (schemaExternals render unreadable (pre ++ sf :: post) newEnv) w).1
        = .panic ("Ошибка загрузки конфига: " ++ render (.requiredFieldMissing sf.name))) := by
  have hres : resolveField w.environ doc (fieldSpec sf)
      = .error (.requiredFieldMissing sf.name) := by
    have hn : (fieldSpec sf).name = sf.name := rfl
    simp [resolveField, henv, hval, hdef, hreq, hn]
  have hmap : (pre ++ sf :: post).map fieldSpec
      = pre.map fieldSpec ++ fieldSpec sf :: post.map fieldSpec := by simp
  constructor
  · obtain ⟨e, he⟩ := decodeFields_fails w.environ doc (zeroRecord (pre ++ sf :: post))
      (pre.map fieldSpec) (post.map fieldSpec) (fieldSpec sf) _ hres
    have hd : decode (pre ++ sf :: post) w.environ doc (zeroRecord (pre ++ sf :: post))
        = .error e := by rw [decode, hmap]; exact he
    exact ⟨e, hd,
      MustLoad_decode_error render unreadable _ newEnv w path doc e hloc hne hfile hd⟩
  · intro hall
    have hothers := resolves_of_all w.environ doc (pre ++ post) hall
    have hpre2 : ∀ g ∈ pre.map fieldSpec, ∃ v, resolveField w.environ doc g = .ok v := by
      intro g hg
      obtain ⟨g0, hg0, rfl⟩ := List.mem_map.1 hg
      exact hothers g0 (List.mem_append_left _ hg0)
    have hd : decode (pre ++ sf :: post) w.environ doc (zeroRecord (pre ++ sf :: post))
        = .error (.requiredFieldMissing sf.name) := by
      rw [decode, hmap]
      exact decodeFields_first_failure w.environ doc _ _ _ _ _ hpre2 hres
    exact ⟨hd,
      MustLoad_decode_error render unreadable _ newEnv w path doc _ hloc hne hfile hd⟩

/-- C7, amended, at a concrete process: a `Database` file that declares every key except
`port` fails naming `Port`. -/
theorem decode_required_missing_witness :
    decode Database [] docDatabaseNoPort (zeroRecord Database)
      = .error (.requiredFieldMissing "Port") ∧
    (@MustLoad Record String constProd
        (schemaExternals sampleRender "unreadable" Database sampleNewEnv)
        worldDatabaseNoPort).1
      = .panic "Ошибка загрузки конфига: required field Port has no value" :=
  (@decode_required_missing String constProd sampleRender "unreadable"
      (Database.take 2) (Database.drop 3)
      ⟨"Port", .int, "yaml:\"port\" env-required:\"true\""⟩ sampleNewEnv
      worldDatabaseNoPort "/etc/db.yaml" docDatabaseNoPort
      (by decide) (by decide) (by decide) (by decide) (by decide) (by decide)
      (by decide)).2 (by decide)

/-- C8. Default substitution: for every field of a struct type that declares a default
literal and gets no value from the file and none from an override variable, a successful
decoding holds in that field the default coerced to the type of the field. -/
theorem decode_default_substitution (schema : List StructField) (sf : StructField)
    (d : String) (environ : List (String × String)) (doc : Document) (dst r : Record)
    (hmem : sf ∈ schema) (hnodup : (schema.map (fun f => f.name)).Nodup)
    (hdef : (fieldSpec sf).defValue = some d)
    (henv : firstSet environ (fieldSpec sf).envList = none)
    (hval : assoc doc (fieldSpec sf).key = none)
    (hdec : decode schema environ doc dst = .ok r) :
    ∃ v, coerce sf.type (fieldSpec sf).separator d = some v ∧ assoc r sf.name = some v := by
  have hn : (fieldSpec sf).name = sf.name := rfl
  have ht : (fieldSpec sf).type = sf.type := rfl
  have hnd : ((schema.map fieldSpec).map (fun f => f.name)).Nodup := by
    have : (schema.map fieldSpec).map (fun f => f.name) = schema.map (fun f => f.name) := by
      simp [Function.comp_def, fieldSpec]
    rw [this]; exact hnodup
  obtain ⟨v, hv, ha⟩ := decodeFields_field environ doc dst (schema.map fieldSpec)
    (fieldSpec sf) r (List.mem_map_of_mem fieldSpec hmem) hnd hdec
  rw [hn, ht] at ha
  have hres : resolveField environ doc (fieldSpec sf) = coerceField (fieldSpec sf) d := by
    simp [resolveField, henv, hval, hdef]
  rw [hres, coerceField, ht] at hv
  cases hc : coerce sf.type (fieldSpec sf).separator d with
  | none => rw [hc] at hv; cases hv
  | some x =>
    rw [hc] at hv
    cases hv
    exact ⟨x, rfl, by simpa using ha⟩

/-- C8 at concrete documents: a `KafkaProducer` file that supplies only `brokers`
decodes with every default in place (one second and ten seconds as nanoseconds), and a
`Database` file without the key `schema` decodes with `Schema = "public"`. -/
theorem decode_default_substitution_witness :
    decode KafkaProducer [] docBrokersOnly (zeroRecord KafkaProducer)
      = .ok [("Brokers", .list ["a:9092", "b:9092"]), ("RequiredAcks", .int 1),
          ("Async", .bool false), ("BatchSize", .int 100),
          ("BatchTimeout", .duration 1000000000), ("WriteTimeout", .duration 10000000000),
          ("MaxAttempts", .int 3)] ∧
    (∃ v, coerce .string "," "public" = some v ∧
      assoc [("Type", Value.str "postgres"), ("Host", .str "db.local"), ("Port", .int 5432),
          ("Name", .str "app"), ("User", .str "svc"), ("Password", .str "secret"),
          ("Schema", .str "public"), ("MigrationPath", .str "/migrations"),
          ("MaxAttempts", .int 5), ("AttemptDelay", .duration 2000000000)] "Schema"
        = some v) :=
  ⟨by decide,
    decode_default_substitution Database
      ⟨"Schema", .string, "yaml:\"schema\" env-default:\"public\""⟩ "public" []
      docDatabaseNoSchema (zeroRecord Database) _ (by decide) (by decide) (by decide)
      (by decide) (by decide) (by decide)⟩

/-- C9. Delimited-list decoding: for every list-typed field whose declared delimiter is
the comma and that no override variable supplies, a raw text given by the file decodes
to the ordered sequence of its pieces: joining the pieces with the comma gives the raw
text back (order and duplicates are kept, nothing is added or dropped) and no piece
contains a comma. -/
theorem decode_list_split (sf : StructField) (environ : List (String × String))
    (doc : Document) (raw : String)
    (htype : sf.type = .stringSlice)
    (hsep : tagLookup sf.tag "env-separator" = some ",")
    (henv : firstSet environ (fieldSpec sf).envList = none)
    (hval : assoc doc (fieldSpec sf).key = some raw) :
    ∃ pieces, resolveField environ doc (fieldSpec sf) = .ok (some (.list pieces)) ∧
      pieces = splitText "," raw ∧
      List.intercalate [','] (pieces.map String.data) = raw.data ∧
      ∀ p ∈ pieces, ',' ∉ p.data := by
  have ht : (fieldSpec sf).type = .stringSlice := htype
  have hs : (fieldSpec sf).separator = "," := by simp [fieldSpec, hsep]
  refine ⟨splitText "," raw, ?_, rfl, ?_, ?_⟩
  · simp [resolveField, henv, hval, coerceField, coerce, ht, hs]
  · rw [splitText_data]
    have : splitChars ",".data raw.data = splitAux [','] raw.data 0 [] := by
      simp [splitChars]
    rw [this, splitAux_intercalate]
    simp
  · intro p hp
    have hmem : p.data ∈ (splitText "," raw).map String.data := List.mem_map_of_mem _ hp
    rw [splitText_data] at hmem
    have : splitChars ",".data raw.data = splitAux [','] raw.data 0 [] := by
      simp [splitChars]
    rw [this] at hmem
    exact splitAux_no_sep ',' raw.data [] (by simp) p.data hmem

/-- C9 at concrete inputs: `"a,b,c"` gives three pieces, `"a"` gives one piece, the list
fields of the source declare the comma, and a file with `brokers: "a:9092,b:9092"`
decodes `Brokers` to the two addresses. -/
theorem decode_list_split_witness :
    splitText "," "a,b,c" = ["a", "b", "c"] ∧ splitText "," "a" = ["a"] ∧
    (KafkaProducer ++ KafkaConsumer ++ KafkaTopics).all
      (fun sf => sf.type ≠ .stringSlice ∨ tagLookup sf.tag "env-separator" = some ",") ∧
    ∃ pieces,
      resolveField [] docBrokersOnly
          (fieldSpec ⟨"Brokers", .stringSlice,
            "yaml:\"brokers\" env-separator:\",\" env-required:\"true\""⟩)
        = .ok (some (.list pieces)) ∧
      pieces = ["a:9092", "b:9092"] :=
  ⟨by decide, by decide, by decide,
    match decode_list_split
        ⟨"Brokers", .stringSlice, "yaml:\"brokers\" env-separator:\",\" env-required:\"true\""⟩
        [] docBrokersOnly "a:9092,b:9092" (by decide) (by decide) (by decide)
        (by decide) with
    | ⟨pieces, h1, h2, _⟩ => ⟨pieces, h1, h2.trans (by decide)⟩⟩

end Configo
